import Mathlib

/-!
Infrastructure asset discovery: a shallow embedding of `osm/overpass.go`
and `server/infrastructure.go`.

Conventions of the embedding.

* A Go `float64` that was decoded from JSON is finite, and the code only
  compares such values (`<`, `>`, `==`) and copies them.  They are modelled
  by `Int`, a linear order with decidable comparisons.
* A Go `map[string]T` is an association list read by first-match lookup;
  reading an absent key of a `map[string]string` gives `""`.  Writing
  `m[k] = v` puts the entry in front, where it shadows an older entry of the
  same key.
* Go `int` counters are modelled by `Int`.
* `log.Printf` calls have no effect on results and are left out.
-/

namespace Osm

/-! ## Data model -/

/-- Go `map[string]string` of OSM tags. -/
abbrev TagMap := List (String × String)

/-- Go index expression `tags[k]` on a `map[string]string`: the zero value
`""` when the key is absent. -/
def TagMap.get (tags : TagMap) (k : String) : String :=
  (tags.lookup k).getD ""

/-- Values stored in `map[string]interface{}` by `convertElement`: a tag
value (string) or the element identifier (int64). -/
inductive PropVal where
  | str (s : String)
  | int (i : Int)
  deriving DecidableEq, Repr

/-- Go `map[string]interface{}` of asset properties. -/
abbrev PropMap := List (String × PropVal)

/-- Go assignment `m[k] = v`. -/
def PropMap.set (m : PropMap) (k : String) (v : PropVal) : PropMap :=
  (k, v) :: m

/-- The struct `OSMNode`. -/
structure OSMNode where
  Lat : Int
  Lon : Int
  deriving DecidableEq, Repr

/-- The struct `OSMElement` (`Typ` is the Go field `Type`). -/
structure OSMElement where
  Typ : String
  ID : Int
  Lat : Int
  Lon : Int
  Tags : TagMap
  Geometry : List OSMNode
  deriving DecidableEq, Repr

/-- The struct `OverpassResponse`. -/
structure OverpassResponse where
  Elements : List OSMElement
  deriving DecidableEq, Repr

/-- The three geometries `convertElement` builds with `geojson.NewPointGeometry`,
`geojson.NewLineStringGeometry` and `geojson.NewPolygonGeometry`. -/
inductive Geometry where
  | Point (coordinates : List Int)
  | LineString (coordinates : List (List Int))
  | Polygon (coordinates : List (List (List Int)))
  deriving DecidableEq, Repr

/-- The struct `Asset` (`Typ` is the Go field `Type`). -/
structure Asset where
  Typ : String
  Geometry : Geometry
  Properties : PropMap
  deriving DecidableEq, Repr

/-- The struct `Bounds`, over the type `F` that stands for `float64`. -/
structure BoundsOf (F : Type) where
  MinLat : F
  MinLon : F
  MaxLat : F
  MaxLon : F
  deriving DecidableEq, Repr

/-- The struct `Bounds` with `float64` modelled by `Int`, as everywhere the
code only compares and copies the values. -/
abbrev Bounds := BoundsOf Int

/-! ## Classification and conversion -/

/-- The method `determineAssetType`: the ordered chain of tag tests. -/
def determineAssetType (tags : TagMap) : String :=
  if tags.get "building" ≠ "" then "building"
  else if tags.get "highway" ≠ "" then "road"
  else if tags.get "power" = "line" then "power_line"
  else if tags.get "power" = "tower" ∨ tags.get "power" = "pole" then "power_infrastructure"
  else if tags.get "railway" ≠ "" then "railway"
  else if tags.get "amenity" = "hospital" then "hospital"
  else if tags.get "amenity" = "fire_station" then "fire_station"
  else ""

/-- The slice `coords` built in the `way` case of `convertElement`:
one `[lon, lat]` per geometry node, in order. -/
def wayCoords (nodes : List OSMNode) : List (List Int) :=
  nodes.map (fun node => [node.Lon, node.Lat])

/-- Go `coords[i][j]` for indices that the code has guarded. -/
def coordAt (coords : List (List Int)) (i j : Nat) : Int :=
  (coords.getD i []).getD j 0

/-- The condition of the polygon branch in the `way` case of `convertElement`. -/
def isClosedBuilding (tags : TagMap) (coords : List (List Int)) : Bool :=
  decide (tags.get "building" ≠ "") && decide (coords.length > 3) &&
    decide (coordAt coords 0 0 = coordAt coords (coords.length - 1) 0) &&
    decide (coordAt coords 0 1 = coordAt coords (coords.length - 1) 1)

/-- The `switch element.Type` of `convertElement`: the geometry, or `none`
where the Go code returns `nil`. -/
def elementGeometry (element : OSMElement) : Option Geometry :=
  if element.Typ = "node" then
    some (Geometry.Point [element.Lon, element.Lat])
  else if element.Typ = "way" then
    if element.Geometry.length < 2 then none
    else
      let coords := wayCoords element.Geometry
      if isClosedBuilding element.Tags coords then some (Geometry.Polygon [coords])
      else some (Geometry.LineString coords)
  else if element.Typ = "relation" then none
  else none

/-- The properties map of `convertElement`: a copy of the tags, then
`osm_id` and `osm_type` assigned. -/
def elementProperties (element : OSMElement) : PropMap :=
  let properties : PropMap := element.Tags.map (fun kv => (kv.1, PropVal.str kv.2))
  let properties := properties.set "osm_id" (PropVal.int element.ID)
  properties.set "osm_type" (PropVal.str element.Typ)

/-- The method `convertElement`; `none` is the Go `nil` result. -/
def convertElement (element : OSMElement) : Option Asset :=
  let assetType := determineAssetType element.Tags
  if assetType = "" then none
  else
    match elementGeometry element with
    | none => none
    | some geometry =>
      some { Typ := assetType, Geometry := geometry, Properties := elementProperties element }

/-- The method `convertToAssets` on a non-nil response. -/
def convertToAssets (response : OverpassResponse) : List Asset :=
  response.Elements.foldl
    (fun assets element =>
      match convertElement element with
      | some asset => assets ++ [asset]
      | none => assets)
    []

/-! ## The classification rule table of the specification -/

/-- A tag is present: its key occurs in the mapping. -/
def tagPresent (tags : TagMap) (k : String) : Bool :=
  (tags.lookup k).isSome

/-- A tag is present with a non-empty value. -/
def tagNonEmpty (tags : TagMap) (k : String) : Bool :=
  match tags.lookup k with
  | some v => decide (v ≠ "")
  | none => false

/-- A tag is present with exactly the value `v`. -/
def tagEquals (tags : TagMap) (k v : String) : Bool :=
  tags.lookup k == some v

/-- The first rule of an ordered table whose predicate holds gives the
result; the empty string when none holds. -/
def firstMatch (rules : List ((TagMap → Bool) × String)) (tags : TagMap) : String :=
  match rules.find? (fun r => r.1 tags) with
  | some r => r.2
  | none => ""

/-- The rule table as the specification words it: building, highway and
railway are tested for presence of the key. -/
def presenceRules : List ((TagMap → Bool) × String) :=
  [ (fun t => tagPresent t "building", "building"),
    (fun t => tagPresent t "highway", "road"),
    (fun t => tagEquals t "power" "line", "power_line"),
    (fun t => tagEquals t "power" "tower" || tagEquals t "power" "pole", "power_infrastructure"),
    (fun t => tagPresent t "railway", "railway"),
    (fun t => tagEquals t "amenity" "hospital", "hospital"),
    (fun t => tagEquals t "amenity" "fire_station", "fire_station") ]

/-- The rule table with building, highway and railway tested for a
non-empty value. -/
def nonEmptyRules : List ((TagMap → Bool) × String) :=
  [ (fun t => tagNonEmpty t "building", "building"),
    (fun t => tagNonEmpty t "highway", "road"),
    (fun t => tagEquals t "power" "line", "power_line"),
    (fun t => tagEquals t "power" "tower" || tagEquals t "power" "pole", "power_infrastructure"),
    (fun t => tagNonEmpty t "railway", "railway"),
    (fun t => tagEquals t "amenity" "hospital", "hospital"),
    (fun t => tagEquals t "amenity" "fire_station", "fire_station") ]

/-! ## Bounds extraction -/

/-- A value decoded by `json.Unmarshal` into `interface{}`: `nil`, `bool`,
`float64`, `string`, `[]interface{}` or `map[string]interface{}`. -/
inductive JSON where
  | null
  | bool (b : Bool)
  | num (x : Int)
  | str (s : String)
  | arr (xs : List JSON)
  | obj (kvs : List (String × JSON))

/-- Go `x, _ := v.(float64)`: the number, or the zero value when `v` is not
a number. -/
def JSON.asFloat : JSON → Int
  | JSON.num x => x
  | _ => 0

/-- Go `c[i]` of a `[]interface{}` at an index the code has guarded. -/
def elemAt (c : List JSON) (i : Nat) : JSON :=
  c.getD i JSON.null

/-- The errors `extractBounds` returns, one per `fmt.Errorf` of the function. -/
inductive BoundsErr where
  | invalidGeoJSON
  | noCoordinates
  | invalidPolygon
  | invalidCoordinate
  deriving DecidableEq, Repr

/-- The body of the `for _, coord := range ring` loop of `extractBounds`,
on the four running variables held in a `Bounds`. -/
def boundsStep (acc : Bounds) (coord : JSON) : Bounds :=
  match coord with
  | JSON.arr c =>
    if c.length < 2 then acc
    else
      let lon := (elemAt c 0).asFloat
      let lat := (elemAt c 1).asFloat
      let minLon := if lon < acc.MinLon then lon else acc.MinLon
      let maxLon := if lon > acc.MaxLon then lon else acc.MaxLon
      let minLat := if lat < acc.MinLat then lat else acc.MinLat
      let maxLat := if lat > acc.MaxLat then lat else acc.MaxLat
      { MinLat := minLat, MinLon := minLon, MaxLat := maxLat, MaxLon := maxLon }
  | _ => acc

/-- The part of `extractBounds` after `json.Unmarshal` succeeded, on the
decoded `map[string]interface{}`. -/
def boundsOfObject (geoData : List (String × JSON)) : Except BoundsErr Bounds :=
  match geoData.lookup "coordinates" with
  | some (JSON.arr coords) =>
    if coords.length = 0 then Except.error BoundsErr.noCoordinates
    else
      match elemAt coords 0 with
      | JSON.arr ring =>
        if ring.length = 0 then Except.error BoundsErr.invalidPolygon
        else
          match elemAt ring 0 with
          | JSON.arr firstCoord =>
            if firstCoord.length < 2 then Except.error BoundsErr.invalidCoordinate
            else
              let minLon := (elemAt firstCoord 0).asFloat
              let minLat := (elemAt firstCoord 1).asFloat
              Except.ok (ring.foldl boundsStep
                { MinLat := minLat, MinLon := minLon, MaxLat := minLat, MaxLon := minLon })
          | _ => Except.error BoundsErr.invalidCoordinate
      | _ => Except.error BoundsErr.invalidPolygon
  | _ => Except.error BoundsErr.noCoordinates

/-- The function `extractBounds`.  The library call `json.Unmarshal` into a
`map[string]interface{}` is the parameter `unmarshal`; `none` is its error. -/
def extractBounds (unmarshal : String → Option (List (String × JSON)))
    (geoJSONStr : String) : Except BoundsErr Bounds :=
  match unmarshal geoJSONStr with
  | none => Except.error BoundsErr.invalidGeoJSON
  | some geoData => boundsOfObject geoData

/-! ## Query construction -/

/-- The local `bbox` of `buildQuery`: `fmt.Sprintf` of four `%f`, comma
separated.  The type `F` stands for `float64` and `fmtF` for the rendering
of one value by the verb `%f`. -/
def bboxTextOf {F : Type} (fmtF : F → String) (bounds : BoundsOf F) : String :=
  fmtF bounds.MinLat ++ "," ++ fmtF bounds.MinLon ++ "," ++
    fmtF bounds.MaxLat ++ "," ++ fmtF bounds.MaxLon

/-- The body of the method `buildQuery`: the query template with `bbox` at
each `%s`, for any representation `F` of `float64` and rendering `fmtF` of
the verb `%f`. -/
def buildQueryOf {F : Type} (fmtF : F → String) (bounds : BoundsOf F) : String :=
  let bbox := bboxTextOf fmtF bounds
  "\n\t\t[out:json][timeout:60];\n\t\t(\n\t\t\t// Buildings\n" ++
  "\t\t\tway[\"building\"](" ++ bbox ++ ");\n" ++
  "\t\t\trelation[\"building\"](" ++ bbox ++ ");\n" ++
  "\t\t\t\n\t\t\t// Roads\n" ++
  "\t\t\tway[\"highway\"](" ++ bbox ++ ");\n" ++
  "\t\t\t\n\t\t\t// Power infrastructure\n" ++
  "\t\t\tway[\"power\"=\"line\"](" ++ bbox ++ ");\n" ++
  "\t\t\tnode[\"power\"=\"tower\"](" ++ bbox ++ ");\n" ++
  "\t\t\tnode[\"power\"=\"pole\"](" ++ bbox ++ ");\n" ++
  "\t\t\t\n\t\t\t// Railways\n" ++
  "\t\t\tway[\"railway\"](" ++ bbox ++ ");\n" ++
  "\t\t\t\n\t\t\t// Critical facilities\n" ++
  "\t\t\tnode[\"amenity\"=\"hospital\"](" ++ bbox ++ ");\n" ++
  "\t\t\tnode[\"amenity\"=\"fire_station\"](" ++ bbox ++ ");\n" ++
  "\t\t\tway[\"amenity\"=\"hospital\"](" ++ bbox ++ ");\n" ++
  "\t\t\tway[\"amenity\"=\"fire_station\"](" ++ bbox ++ ");\n" ++
  "\t\t);\n\t\tout geom;\n\t"

/-- The verb `%f` on the integer-valued numbers that stand for `float64` in
the retry loop.  It only names the query handed to the attempts there;
fractions and negative zero are outside it, and what is proved of
`buildQuery` is proved of `buildQueryOf` for every rendering. -/
def formatF (x : Int) : String :=
  toString x ++ ".000000"

/-- The query `QueryAssets` builds from modelled bounds. -/
def buildQuery (bounds : Bounds) : String :=
  buildQueryOf formatF bounds

/-- The struct `OverpassClient`; `timeout` stands for the `http.Client`
built from it, durations are counted in nanoseconds. -/
structure OverpassClient where
  apiURL : String
  timeout : Int
  maxRetries : Int
  retryDelay : Int
  deriving DecidableEq, Repr

/-- The constructor `NewOverpassClient`. -/
def NewOverpassClient (apiURL : String) (timeout : Int) (maxRetries : Int)
    (retryDelay : Int) : OverpassClient :=
  { apiURL := apiURL, timeout := timeout, maxRetries := maxRetries, retryDelay := retryDelay }

/-- The method `buildQuery` with its receiver `c`, which the body never
reads. -/
def OverpassClient.buildQuery {F : Type} (_c : OverpassClient) (fmtF : F → String)
    (bounds : BoundsOf F) : String :=
  buildQueryOf fmtF bounds

/-! ## The layout of the query in the words of the specification -/

/-- The eleven category selectors: way and relation building, way highway,
way power=line, node power=tower, node power=pole, way railway, node and way
amenity=hospital, node and way amenity=fire_station. -/
def categorySelectors : List String :=
  [ "way[\"building\"]", "relation[\"building\"]", "way[\"highway\"]",
    "way[\"power\"=\"line\"]", "node[\"power\"=\"tower\"]", "node[\"power\"=\"pole\"]",
    "way[\"railway\"]", "node[\"amenity\"=\"hospital\"]",
    "node[\"amenity\"=\"fire_station\"]", "way[\"amenity\"=\"hospital\"]",
    "way[\"amenity\"=\"fire_station\"]" ]

/-- The text that precedes each category clause: the header before the
first, and indentation, blank lines and comments before the others. -/
def clauseLeads : List String :=
  [ "\n\t\t[out:json][timeout:60];\n\t\t(\n\t\t\t// Buildings\n\t\t\t", "\t\t\t",
    "\t\t\t\n\t\t\t// Roads\n\t\t\t",
    "\t\t\t\n\t\t\t// Power infrastructure\n\t\t\t", "\t\t\t", "\t\t\t",
    "\t\t\t\n\t\t\t// Railways\n\t\t\t",
    "\t\t\t\n\t\t\t// Critical facilities\n\t\t\t", "\t\t\t", "\t\t\t", "\t\t\t" ]

/-- One category clause: the selector with the bounding-box text in
parentheses. -/
def clauseText (selector bbox : String) : String :=
  selector ++ "(" ++ bbox ++ ");\n"

/-- The category clauses of the query, each after its leading text, all
with the same bounding-box text. -/
def queryClauses (bbox : String) : List String :=
  List.zipWith (fun lead selector => lead ++ clauseText selector bbox)
    clauseLeads categorySelectors

/-- The closing of the union and the `out geom` directive. -/
def queryFooter : String := "\t\t);\n\t\tout geom;\n\t"

/-- The query as the specification describes it: the category clauses in
order, followed by the `out geom` directive. -/
def renderQuery (bbox : String) : String :=
  (queryClauses bbox).foldr (fun clause rest => clause ++ rest) queryFooter

/-- The bounding-box text as the specification describes it: the four
numbers min-lat, min-lon, max-lat, max-lon, separated by commas. -/
def bboxSpec {F : Type} (fmtF : F → String) (bounds : BoundsOf F) : String :=
  String.intercalate ","
    ([bounds.MinLat, bounds.MinLon, bounds.MaxLat, bounds.MaxLon].map fmtF)

/-! ## The retry loop of `QueryAssets` -/

/-- The value of `ctx.Err()` once the context is done. -/
inductive CtxErr where
  | Canceled
  | DeadlineExceeded
  deriving DecidableEq, Repr

/-- The errors `executeQuery` returns, one per `fmt.Errorf` of the function.
`executeRequest` carries the context error when the transport was
interrupted by the context. -/
inductive ExecErr where
  | createRequest (cause : String)
  | executeRequest (ctxErr : Option CtxErr) (cause : String)
  | badStatus (code : Int) (body : String)
  | decode (cause : String)
  deriving DecidableEq, Repr

/-- What the outside world does during one call of `QueryAssets`.
`exec query attempt` is the result of the call `c.executeQuery(ctx, query)`
made in loop iteration `attempt`; `wait attempt` is the outcome of the
`select` before that iteration: `some e` when the `ctx.Done()` case is
taken, with `ctx.Err() = e`, and `none` when the timer case is taken. -/
structure Env where
  exec : String → Nat → Except ExecErr OverpassResponse
  wait : Nat → Option CtxErr

/-- Observable steps of the loop, in order. -/
inductive Event where
  | wait (attempt : Nat)
  | exec (attempt : Nat)
  deriving DecidableEq, Repr

/-- How control leaves the `for` loop: by the `return nil, ctx.Err()` inside
it, or past its end (by `break` or a false condition) with the variables
`response` and `err`. -/
inductive LoopExit where
  | returned (e : CtxErr)
  | done (response : Option OverpassResponse) (err : Option ExecErr)
  deriving DecidableEq, Repr

/-- The `for attempt := 0; attempt <= c.maxRetries; attempt++` loop of
`QueryAssets` from iteration `attempt` on, with the current `response` and
`err`.  The result is how the loop is left and the events performed; `none`
only when `fuel` iterations were not enough. -/
def retryLoop (env : Env) (maxRetries : Int) (query : String) :
    Nat → Nat → Option OverpassResponse → Option ExecErr → Option (LoopExit × List Event)
  | 0, _, _, _ => none
  | fuel + 1, attempt, response, err =>
    if (attempt : Int) ≤ maxRetries then
      match (if attempt > 0 then env.wait attempt else none) with
      | some e => some (LoopExit.returned e, [Event.wait attempt])
      | none =>
        let waited := if attempt > 0 then [Event.wait attempt] else []
        match env.exec query attempt with
        | Except.ok r => some (LoopExit.done (some r) none, waited ++ [Event.exec attempt])
        | Except.error e =>
          match retryLoop env maxRetries query fuel (attempt + 1) none (some e) with
          | some (exit, events) => some (exit, waited ++ Event.exec attempt :: events)
          | none => none
    else some (LoopExit.done response err, [])

/-- The errors `QueryAssets` returns: the wrapped bounds error, the bare
`ctx.Err()`, and the last attempt error wrapped with `c.maxRetries+1`. -/
inductive QueryErr where
  | bounds (e : BoundsErr)
  | ctx (e : CtxErr)
  | afterAttempts (count : Int) (last : ExecErr)
  deriving DecidableEq, Repr

/-- Outcome of `QueryAssets`: assets, an error, or the nil dereference of
`response.Elements` in `convertToAssets`. -/
inductive QueryResult where
  | ok (assets : List Asset)
  | error (e : QueryErr)
  | nilDereference
  deriving DecidableEq, Repr

/-- Iterations that suffice for the loop to be left: one per value of
`attempt` in `0 .. maxRetries`, and one for the failing condition. -/
def loopFuel (maxRetries : Int) : Nat :=
  (maxRetries + 1).toNat + 1

/-- The method `QueryAssets`, with the events it performed. -/
def QueryAssets (unmarshal : String → Option (List (String × JSON))) (env : Env)
    (maxRetries : Int) (areaGeoJSON : String) : Option (QueryResult × List Event) :=
  match extractBounds unmarshal areaGeoJSON with
  | Except.error e => some (QueryResult.error (QueryErr.bounds e), [])
  | Except.ok bounds =>
    let query := buildQuery bounds
    match retryLoop env maxRetries query (loopFuel maxRetries) 0 none none with
    | none => none
    | some (LoopExit.returned e, events) => some (QueryResult.error (QueryErr.ctx e), events)
    | some (LoopExit.done _ (some e), events) =>
      some (QueryResult.error (QueryErr.afterAttempts (maxRetries + 1) e), events)
    | some (LoopExit.done (some response) none, events) =>
      some (QueryResult.ok (convertToAssets response), events)
    | some (LoopExit.done none none, events) => some (QueryResult.nilDereference, events)

/-! ## The RPC handler -/

/-- The gRPC status codes used by `GetAssetsInAOI`. -/
inductive Code where
  | InvalidArgument
  | Internal
  deriving DecidableEq, Repr

/-- The message `pb.Asset`. -/
structure PbAsset where
  AssetType : String
  AssetGeometryGeojson : String
  Properties : List (String × String)
  deriving DecidableEq, Repr

/-- The message `pb.GetAssetsResponse`. -/
structure GetAssetsResponse where
  Assets : List PbAsset
  TotalCount : Int
  deriving DecidableEq, Repr

/-- Go conversion `int32(n)` of a length. -/
def toInt32 (n : Nat) : Int :=
  ((n : Int) + 2 ^ 31) % 2 ^ 32 - 2 ^ 31

/-- The verb `%v` of `fmt.Sprintf` on a property value. -/
def formatV : PropVal → String
  | PropVal.str s => s
  | PropVal.int i => toString i

/-- The body of the asset loop of `GetAssetsInAOI`; `none` is the
`continue` after a failed `json.Marshal` (the parameter `marshal`). -/
def toPbAsset (marshal : Geometry → Option String) (asset : Asset) : Option PbAsset :=
  match marshal asset.Geometry with
  | none => none
  | some geometryJSON =>
    some { AssetType := asset.Typ,
           AssetGeometryGeojson := geometryJSON,
           Properties := asset.Properties.map (fun kv => (kv.1, formatV kv.2)) }

/-- The asset loop of `GetAssetsInAOI`. -/
def toPbAssets (marshal : Geometry → Option String) (assets : List Asset) : List PbAsset :=
  assets.foldl
    (fun pbAssets asset =>
      match toPbAsset marshal asset with
      | some pbAsset => pbAssets ++ [pbAsset]
      | none => pbAssets)
    []

/-- The `typeCount[asset.AssetType]++` loop of `GetAssetsInAOI`. -/
def typeCount (pbAssets : List PbAsset) : List (String × Nat) :=
  pbAssets.foldl
    (fun counts asset =>
      (asset.AssetType, (counts.lookup asset.AssetType).getD 0 + 1) :: counts)
    []

/-- Outcome of `GetAssetsInAOI`: a status error, a response, or the
propagated nil dereference. -/
inductive RpcResult where
  | status (code : Code) (message : String)
  | ok (response : GetAssetsResponse)
  | nilDereference
  deriving DecidableEq, Repr

/-- The method `GetAssetsInAOI`, with the events the client performed. -/
def GetAssetsInAOI (unmarshal : String → Option (List (String × JSON)))
    (marshal : Geometry → Option String) (env : Env) (maxRetries : Int)
    (AoiGeojson : String) : Option (RpcResult × List Event) :=
  if AoiGeojson = "" then
    some (RpcResult.status Code.InvalidArgument "aoi_geojson is required", [])
  else
    match unmarshal AoiGeojson with
    | none => some (RpcResult.status Code.InvalidArgument "invalid GeoJSON format", [])
    | some _ =>
      match QueryAssets unmarshal env maxRetries AoiGeojson with
      | none => none
      | some (QueryResult.error _, events) =>
        some (RpcResult.status Code.Internal "failed to fetch assets from OpenStreetMap", events)
      | some (QueryResult.nilDereference, events) => some (RpcResult.nilDereference, events)
      | some (QueryResult.ok assets, events) =>
        let pbAssets := toPbAssets marshal assets
        some (RpcResult.ok { Assets := pbAssets, TotalCount := toInt32 pbAssets.length }, events)

/-! ## Configuration -/

/-- The struct `Config` of the infrastructure service; durations are
counted in nanoseconds. -/
structure Config where
  GRPCPort : String
  OverpassAPIURL : String
  HTTPTimeout : Int
  MaxRetries : Int
  RetryDelay : Int
  deriving DecidableEq, Repr

/-- The function `LoadConfig`; `none` is its error return.  The helper
`config.GetEnv` of the shared package and the library calls
`time.ParseDuration` and `strconv.Atoi` are the parameters `getEnv`,
`parseDuration` and `atoi`. -/
def LoadConfig (getEnv : String → String → String) (parseDuration : String → Option Int)
    (atoi : String → Option Int) : Option Config :=
  match parseDuration (getEnv "HTTP_TIMEOUT" "60s") with
  | none => none
  | some http_timeout =>
    match atoi (getEnv "MAX_RETRIES" "3") with
    | none => none
    | some max_retries =>
      match parseDuration (getEnv "RETRY_DELAY" "2s") with
      | none => none
      | some retry_delay =>
        some { GRPCPort := getEnv "GRPC_PORT" "50052",
               OverpassAPIURL :=
                 getEnv "OVERPASS_API_URL" "https://overpass-api.de/api/interpreter",
               HTTPTimeout := http_timeout,
               MaxRetries := max_retries,
               RetryDelay := retry_delay }

/-- The client that `NewInfrastructureServer` builds from the configuration. -/
def NewInfrastructureServer (cfg : Config) : OverpassClient :=
  NewOverpassClient cfg.OverpassAPIURL cfg.HTTPTimeout cfg.MaxRetries cfg.RetryDelay

/-! ## Reading the per-type counts -/

/-- Go `typeCount[k]`: 0 for a type that was never counted. -/
def countOf (counts : List (String × Nat)) (k : String) : Nat :=
  (counts.lookup k).getD 0

/-- The keys of the `typeCount` map, each once. -/
def countedTypes (counts : List (String × Nat)) : List String :=
  (counts.map Prod.fst).dedup

/-- The sum of the per-type counts. -/
def countsTotal (counts : List (String × Nat)) : Nat :=
  ((countedTypes counts).map (countOf counts)).sum

/-- The number of returned assets and the `TotalCount` of a successful
answer. -/
def RpcResult.counts : RpcResult → Option (Nat × Int)
  | RpcResult.ok response => some (response.Assets.length, response.TotalCount)
  | _ => none

/-- The asset types of a successful answer, in order. -/
def RpcResult.assetTypes : RpcResult → Option (List String)
  | RpcResult.ok response => some (response.Assets.map (fun asset => asset.AssetType))
  | _ => none

/-! ## Reading a trace -/

/-- The attempts of a trace: the iterations in which `executeQuery` ran. -/
def Event.isExec : Event → Bool
  | Event.exec _ => true
  | Event.wait _ => false

/-- Number of calls of `executeQuery` in a trace. -/
def attemptCount (events : List Event) : Nat :=
  (events.filter Event.isExec).length

/-- The events of iteration `attempt` when it runs undisturbed: attempt 0
is a bare call, every later attempt is one wait and then the call. -/
def attemptEvents (attempt : Nat) : List Event :=
  if attempt = 0 then [Event.exec 0] else [Event.wait attempt, Event.exec attempt]

/-- The trace of the attempts `0 .. n-1`, none of them interrupted. -/
def attemptsTrace (n : Nat) : List Event :=
  (List.range n).flatMap attemptEvents

/-! ## Reading a ring -/

/-- The first ring of a decoded payload: present when `coordinates` is an
array whose first entry is an array. -/
def firstRing (geoData : List (String × JSON)) : Option (List JSON) :=
  match geoData.lookup "coordinates" with
  | some (JSON.arr (JSON.arr ring :: _)) => some ring
  | _ => none

/-- A usable coordinate pair in the words of the specification: an array
whose first two components are numbers; the result is (lon, lat). -/
def numericPair? : JSON → Option (Int × Int)
  | JSON.arr (JSON.num lon :: JSON.num lat :: _) => some (lon, lat)
  | _ => none

/-- The usable coordinate pairs of a ring, in order. -/
def usablePairs (ring : List JSON) : List (Int × Int) :=
  ring.filterMap numericPair?

/-- An entry the loop of `extractBounds` does not skip: an array of at least
two components, of whatever kind. -/
def isPair : JSON → Bool
  | JSON.arr c => decide (2 ≤ c.length)
  | _ => false

/-- What the loop of `extractBounds` reads from an entry it does not skip:
the first two components, a component that is not a number read as 0. -/
def readPair? : JSON → Option (Int × Int)
  | JSON.arr c => if c.length < 2 then none else some ((elemAt c 0).asFloat, (elemAt c 1).asFloat)
  | _ => none

/-- Every entry of at least two components has numeric longitude and latitude. -/
def wellTyped (ring : List JSON) : Prop :=
  ∀ j ∈ ring, isPair j = true → (numericPair? j).isSome = true

/-! ## Sample inputs -/

/-- A decoder that agrees with `json.Unmarshal` on the payloads used below:
a polygon with the ring (0,0), (1,1); a ring whose first entry has one
component; a ring whose first entry is a pair of strings; a ring with a
one-component entry after the first; the empty object; and the empty text,
which is not JSON. -/
def sampleUnmarshal (text : String) : Option (List (String × JSON)) :=
  if text = "\x7b\"coordinates\":[[[0,0],[1,1]]]\x7d" then
    some [("coordinates",
      JSON.arr [JSON.arr [JSON.arr [JSON.num 0, JSON.num 0], JSON.arr [JSON.num 1, JSON.num 1]]])]
  else if text = "\x7b\"coordinates\":[[[1],[5,5]]]\x7d" then
    some [("coordinates",
      JSON.arr [JSON.arr [JSON.arr [JSON.num 1], JSON.arr [JSON.num 5, JSON.num 5]]])]
  else if text = "\x7b\"coordinates\":[[[\"a\",\"b\"],[5,5]]]\x7d" then
    some [("coordinates",
      JSON.arr [JSON.arr [JSON.arr [JSON.str "a", JSON.str "b"],
        JSON.arr [JSON.num 5, JSON.num 5]]])]
  else if text = "\x7b\"coordinates\":[[[0,0],[7],[1,1]]]\x7d" then
    some [("coordinates",
      JSON.arr [JSON.arr [JSON.arr [JSON.num 0, JSON.num 0], JSON.arr [JSON.num 7],
        JSON.arr [JSON.num 1, JSON.num 1]]])]
  else if text = "\x7b\x7d" then some []
  else none

/-- The polygon payload `sampleUnmarshal` decodes. -/
def samplePolygon : String := "\x7b\"coordinates\":[[[0,0],[1,1]]]\x7d"

/-- The payload whose ring starts with a one-component entry. -/
def shortFirstPayload : String := "\x7b\"coordinates\":[[[1],[5,5]]]\x7d"

/-- The payload whose ring has a one-component entry after the first. -/
def skipPayload : String := "\x7b\"coordinates\":[[[0,0],[7],[1,1]]]\x7d"

/-- The payload that is an object without coordinates. -/
def emptyObjectPayload : String := "\x7b\x7d"

/-- A geometry encoder that never fails. -/
def sampleMarshal (_ : Geometry) : Option String :=
  some "geometry"

/-- The payload whose ring starts with a pair of strings. -/
def textPairPayload : String := "\x7b\"coordinates\":[[[\"a\",\"b\"],[5,5]]]\x7d"

/-- An endpoint that answers 504 twice and then succeeds with no elements;
no wait is interrupted. -/
def thirdTimeEnv : Env :=
  { exec := fun _ attempt =>
      if attempt = 2 then Except.ok { Elements := [] }
      else Except.error (ExecErr.badStatus 504 "")
    wait := fun _ => none }

/-- An endpoint that always answers 504; no wait is interrupted. -/
def alwaysFailEnv : Env :=
  { exec := fun _ _ => Except.error (ExecErr.badStatus 504 "")
    wait := fun _ => none }

/-- An endpoint that always answers 504, with the context cancelled during
the wait before the second retry. -/
def cancelledEnv : Env :=
  { exec := fun _ _ => Except.error (ExecErr.badStatus 504 "")
    wait := fun attempt => if attempt = 2 then some CtxErr.Canceled else none }

/-- A closed way of four coordinates tagged as a building. -/
def closedBuildingWay : OSMElement :=
  { Typ := "way", ID := 1, Lat := 0, Lon := 0, Tags := [("building", "yes")],
    Geometry := [⟨0, 0⟩, ⟨0, 1⟩, ⟨1, 1⟩, ⟨0, 0⟩] }

/-- A node tagged as a hospital. -/
def hospitalNode : OSMElement :=
  { Typ := "node", ID := 2, Lat := 0, Lon := 0, Tags := [("amenity", "hospital")],
    Geometry := [] }

/-- An endpoint that answers at once with the building way followed by the
hospital node. -/
def endToEndEnv : Env :=
  { exec := fun _ _ => Except.ok { Elements := [closedBuildingWay, hospitalNode] }
    wait := fun _ => none }

/-- An endpoint that answers at once with `2^31` hospital nodes. -/
def manyHospitalsEnv : Env :=
  { exec := fun _ _ => Except.ok { Elements := List.replicate 2147483648 hospitalNode }
    wait := fun _ => none }

/-- An endpoint that answers 504 three times; the context is cancelled
during the fourth attempt, the last of a budget of three retries, whose
transport error wraps the context error. -/
def lastAttemptCancelledEnv : Env :=
  { exec := fun _ attempt =>
      if attempt = 3 then
        Except.error (ExecErr.executeRequest (some CtxErr.Canceled) "context canceled")
      else Except.error (ExecErr.badStatus 504 "")
    wait := fun _ => none }

/-- An endpoint that answers 504 once; the context is cancelled during the
second attempt, whose transport error wraps the context error, and is seen
done in the wait that follows. -/
def attemptCancelledEnv : Env :=
  { exec := fun _ attempt =>
      if attempt = 1 then
        Except.error (ExecErr.executeRequest (some CtxErr.Canceled) "context canceled")
      else Except.error (ExecErr.badStatus 504 "")
    wait := fun attempt => if attempt = 2 then some CtxErr.Canceled else none }

/-- An environment in which `MAX_RETRIES` is set to `-1`. -/
def negativeRetriesEnv (key fallback : String) : String :=
  if key = "MAX_RETRIES" then "-1" else fallback

/-- A duration reader that agrees with `time.ParseDuration` on the two
default values. -/
def sampleParseDuration (text : String) : Option Int :=
  if text = "60s" then some 60000000000
  else if text = "2s" then some 2000000000
  else none

/-- A number reader that agrees with `strconv.Atoi` on "-1" and "3". -/
def sampleAtoi (text : String) : Option Int :=
  if text = "-1" then some (-1)
  else if text = "3" then some 3
  else none

/-- Four `float64` values, among them a negative zero and two fractions. -/
inductive SampleFloat where
  | negZero
  | half
  | one
  | threeHalves
  deriving DecidableEq, Repr

/-- What the verb `%f` prints for the four sample values. -/
def sampleFormatF : SampleFloat → String
  | SampleFloat.negZero => "-0.000000"
  | SampleFloat.half => "0.500000"
  | SampleFloat.one => "1.000000"
  | SampleFloat.threeHalves => "1.500000"

/-- Bounds from latitude -0 and longitude 0.5 to latitude 1 and longitude
1.5. -/
def sampleBounds : BoundsOf SampleFloat :=
  { MinLat := SampleFloat.negZero, MinLon := SampleFloat.half,
    MaxLat := SampleFloat.one, MaxLon := SampleFloat.threeHalves }

/-! ## Lemmas on tag lookup and classification -/

theorem tagNonEmpty_eq (t : TagMap) (k : String) :
    tagNonEmpty t k = decide (t.get k ≠ "") := by
  unfold tagNonEmpty TagMap.get
  cases h : t.lookup k <;> simp

theorem tagEquals_eq (t : TagMap) (k v : String) (hv : v ≠ "") :
    tagEquals t k v = decide (t.get k = v) := by
  unfold tagEquals TagMap.get
  cases h : t.lookup k with
  | none => simpa using fun h' => hv h'.symm
  | some w => simp only [Option.getD_some]; rfl

theorem determineAssetType_eq_nonEmptyRules (tags : TagMap) :
    determineAssetType tags = firstMatch nonEmptyRules tags := by
  unfold determineAssetType firstMatch nonEmptyRules
  simp only [List.find?, tagNonEmpty_eq, tagEquals_eq _ _ _ (by decide : "line" ≠ ""),
    tagEquals_eq _ _ _ (by decide : "tower" ≠ ""), tagEquals_eq _ _ _ (by decide : "pole" ≠ ""),
    tagEquals_eq _ _ _ (by decide : "hospital" ≠ ""),
    tagEquals_eq _ _ _ (by decide : "fire_station" ≠ "")]
  split_ifs with h1 h2 h3 h4 h5 h6 h7 <;> try simp_all
  rcases h4 with h4 | h4 <;> simp [h4]

theorem foldl_append_filterMap {α β : Type} (f : α → Option β)
    (step : List β → α → List β) (hstep : ∀ out a, step out a = out ++ (f a).toList)
    (l : List α) (acc : List β) :
    l.foldl step acc = acc ++ l.filterMap f := by
  induction l generalizing acc with
  | nil => simp
  | cons a l ih =>
    simp only [List.foldl_cons, List.filterMap_cons, hstep, ih]
    cases h : f a <;> simp

theorem convertToAssets_eq_filterMap (response : OverpassResponse) :
    convertToAssets response = response.Elements.filterMap convertElement := by
  unfold convertToAssets
  rw [foldl_append_filterMap convertElement]
  · simp
  · intro out a
    cases h : convertElement a <;> simp

theorem lookup_map_str (tags : TagMap) (k : String) :
    (tags.map (fun kv => (kv.1, PropVal.str kv.2))).lookup k =
      (tags.lookup k).map PropVal.str := by
  induction tags with
  | nil => rfl
  | cons kv tags ih =>
    obtain ⟨k', v⟩ := kv
    simp only [List.map_cons, List.lookup_cons]
    cases h : (k == k') <;> simp [ih]

theorem convertElement_some (element : OSMElement) (asset : Asset)
    (h : convertElement element = some asset) :
    determineAssetType element.Tags ≠ "" ∧
    asset.Typ = determineAssetType element.Tags ∧
    elementGeometry element = some asset.Geometry ∧
    asset.Properties = elementProperties element := by
  unfold convertElement at h
  simp only at h
  split_ifs at h with h0
  cases hg : elementGeometry element with
  | none => simp [hg] at h
  | some g =>
    simp only [hg, Option.some.injEq] at h
    subst h
    exact ⟨h0, rfl, rfl, rfl⟩

theorem elementGeometry_some_typ (element : OSMElement) (g : Geometry)
    (h : elementGeometry element = some g) :
    element.Typ = "node" ∨ element.Typ = "way" := by
  unfold elementGeometry at h
  by_cases h1 : element.Typ = "node"
  · exact Or.inl h1
  · by_cases h2 : element.Typ = "way"
    · exact Or.inr h2
    · simp [h1, h2] at h

theorem coordAt_wayCoords (nodes : List OSMNode) (i : Nat) (h : i < nodes.length) :
    coordAt (wayCoords nodes) i 0 = nodes[i].Lon ∧
    coordAt (wayCoords nodes) i 1 = nodes[i].Lat := by
  unfold coordAt wayCoords
  simp [List.getD_eq_getElem?_getD, List.getElem?_map, List.getElem?_eq_getElem h]

theorem closed_iff_head_eq_last (nodes : List OSMNode) (h : 0 < nodes.length) :
    (coordAt (wayCoords nodes) 0 0 = coordAt (wayCoords nodes) (nodes.length - 1) 0 ∧
     coordAt (wayCoords nodes) 0 1 = coordAt (wayCoords nodes) (nodes.length - 1) 1) ↔
    nodes.head? = nodes.getLast? := by
  have hl : nodes.length - 1 < nodes.length := by omega
  rw [(coordAt_wayCoords nodes 0 h).1, (coordAt_wayCoords nodes 0 h).2,
    (coordAt_wayCoords nodes _ hl).1, (coordAt_wayCoords nodes _ hl).2,
    List.getLast?_eq_getElem?, List.head?_eq_getElem?,
    List.getElem?_eq_getElem h, List.getElem?_eq_getElem hl, Option.some.injEq]
  generalize nodes[0] = a
  generalize nodes[nodes.length - 1] = b
  cases a; cases b; simp [and_comm]

/-! ## Classification (C1, C2) -/

/-- C1, as stated, fails: on the tag mapping whose only entry is `building`
with the empty value, the building key is present and the presence-based rule
table answers "building", while `determineAssetType` answers the empty
result. -/
theorem determineAssetType_presence_refuted :
    tagPresent [("building", "")] "building" = true ∧
    firstMatch presenceRules [("building", "")] = "building" ∧
    determineAssetType [("building", "")] = "" := by
  decide

/-- C1, amended: `determineAssetType` equals the ordered first-match-wins rule
table in which building, highway and railway are tested for a non-empty value
and power and amenity for their exact values; when the table gives the empty
result `convertElement` emits no asset. -/
theorem determineAssetType_rule_table (element : OSMElement) :
    determineAssetType element.Tags = firstMatch nonEmptyRules element.Tags ∧
    (firstMatch nonEmptyRules element.Tags = "" → convertElement element = none) := by
  refine ⟨determineAssetType_eq_nonEmptyRules _, fun h => ?_⟩
  rw [← determineAssetType_eq_nonEmptyRules] at h
  simp [convertElement, h]

theorem determineAssetType_rule_table_witness :
    firstMatch nonEmptyRules [("name", "x")] = "" ∧
    convertElement
      { Typ := "node", ID := 1, Lat := 0, Lon := 0, Tags := [("name", "x")], Geometry := [] }
      = none :=
  ⟨by decide,
   (determineAssetType_rule_table
      { Typ := "node", ID := 1, Lat := 0, Lon := 0, Tags := [("name", "x")],
        Geometry := [] }).2 (by decide)⟩

/-- C2: whenever both the building and the highway tag carry a non-empty
value, whatever else the mapping holds, `determineAssetType` returns
"building"; and on the mapping whose only entry is power=pole it returns
"power_infrastructure". -/
theorem determineAssetType_precedence (tags : TagMap) (b h : String)
    (hb : tags.lookup "building" = some b) (hbne : b ≠ "")
    (_hh : tags.lookup "highway" = some h) (_hhne : h ≠ "") :
    determineAssetType tags = "building" ∧
    determineAssetType [("power", "pole")] = "power_infrastructure" := by
  refine ⟨?_, by decide⟩
  unfold determineAssetType TagMap.get
  simp [hb, hbne]

theorem determineAssetType_precedence_witness :
    determineAssetType [("highway", "primary"), ("power", "line"), ("building", "yes")]
      = "building" ∧
    determineAssetType [("power", "pole")] = "power_infrastructure" :=
  determineAssetType_precedence
    [("highway", "primary"), ("power", "line"), ("building", "yes")] "yes" "primary"
    (by decide) (by decide) (by decide) (by decide)

/-! ## Way geometry (C3) -/

/-- C3: for a way element that classifies to some asset type, fewer than two
geometry coordinates give no asset; otherwise an asset is emitted whose
geometry is the Polygon with the single ring of the coordinates in order,
each as [lon, lat], exactly when the building tag is non-empty, there are
more than three coordinates and the first and last coordinate are equal, and
is the LineString of the same coordinates in every other case. -/
theorem convertElement_way_geometry (element : OSMElement)
    (hway : element.Typ = "way") (hcls : determineAssetType element.Tags ≠ "") :
    (element.Geometry.length < 2 → convertElement element = none) ∧
    (2 ≤ element.Geometry.length →
      ∃ asset, convertElement element = some asset ∧
        asset.Geometry =
          if tagNonEmpty element.Tags "building" = true ∧ 3 < element.Geometry.length ∧
              element.Geometry.head? = element.Geometry.getLast?
          then Geometry.Polygon [element.Geometry.map (fun n => [n.Lon, n.Lat])]
          else Geometry.LineString (element.Geometry.map (fun n => [n.Lon, n.Lat]))) := by
  constructor
  · intro hlen
    simp [convertElement, elementGeometry, hway, hlen]
  · intro hlen
    have hpos : 0 < element.Geometry.length := by omega
    have hclosed := closed_iff_head_eq_last element.Geometry hpos
    have hlen' : ¬ element.Geometry.length < 2 := by omega
    have hwl : (wayCoords element.Geometry).length = element.Geometry.length := by
      simp [wayCoords]
    have hconv : convertElement element = some
        { Typ := determineAssetType element.Tags,
          Geometry :=
            if isClosedBuilding element.Tags (wayCoords element.Geometry) = true
            then Geometry.Polygon [wayCoords element.Geometry]
            else Geometry.LineString (wayCoords element.Geometry),
          Properties := elementProperties element } := by
      have hwn : ¬ ("way" = "node") := by decide
      simp only [convertElement, hcls, if_false, elementGeometry, hway, hwn, hlen']
      split_ifs <;> rfl
    refine ⟨_, hconv, ?_⟩
    by_cases hc : tagNonEmpty element.Tags "building" = true ∧ 3 < element.Geometry.length ∧
        element.Geometry.head? = element.Geometry.getLast?
    · have hcb : isClosedBuilding element.Tags (wayCoords element.Geometry) = true := by
        obtain ⟨h1, h2, h3⟩ := hc
        rw [tagNonEmpty_eq] at h1
        have h4 := hclosed.mpr h3
        unfold isClosedBuilding
        rw [hwl]
        simp only [Bool.and_eq_true, decide_eq_true_eq]
        exact ⟨⟨⟨of_decide_eq_true h1, h2⟩, h4.1⟩, h4.2⟩
      rw [if_pos hcb, if_pos hc]
      rfl
    · have hcb : isClosedBuilding element.Tags (wayCoords element.Geometry) = false := by
        by_contra hne
        have ht : isClosedBuilding element.Tags (wayCoords element.Geometry) = true := by
          simpa using hne
        unfold isClosedBuilding at ht
        rw [hwl] at ht
        simp only [Bool.and_eq_true, decide_eq_true_eq] at ht
        obtain ⟨⟨⟨h1, h2⟩, h3⟩, h4⟩ := ht
        apply hc
        refine ⟨?_, h2, hclosed.mp ⟨h3, h4⟩⟩
        rw [tagNonEmpty_eq]
        exact decide_eq_true h1
      rw [if_neg (by simp [hcb]), if_neg hc]
      rfl

theorem convertElement_way_geometry_witness :
    (∃ asset,
      convertElement
        { Typ := "way", ID := 7, Lat := 0, Lon := 0, Tags := [("building", "yes")],
          Geometry := [⟨0, 0⟩, ⟨0, 1⟩, ⟨1, 1⟩, ⟨0, 0⟩] } = some asset ∧
      asset.Geometry = Geometry.Polygon [[[0, 0], [1, 0], [1, 1], [0, 0]]]) ∧
    (∃ asset,
      convertElement
        { Typ := "way", ID := 7, Lat := 0, Lon := 0, Tags := [("highway", "track")],
          Geometry := [⟨0, 0⟩, ⟨0, 1⟩, ⟨1, 1⟩, ⟨0, 0⟩] } = some asset ∧
      asset.Geometry = Geometry.LineString [[0, 0], [1, 0], [1, 1], [0, 0]]) :=
  ⟨(convertElement_way_geometry
      { Typ := "way", ID := 7, Lat := 0, Lon := 0, Tags := [("building", "yes")],
        Geometry := [⟨0, 0⟩, ⟨0, 1⟩, ⟨1, 1⟩, ⟨0, 0⟩] } rfl (by decide)).2 (by decide),
   (convertElement_way_geometry
      { Typ := "way", ID := 7, Lat := 0, Lon := 0, Tags := [("highway", "track")],
        Geometry := [⟨0, 0⟩, ⟨0, 1⟩, ⟨1, 1⟩, ⟨0, 0⟩] } rfl (by decide)).2 (by decide)⟩

/-! ## Relations and properties (C8, C9) -/

/-- C8: an element of type "relation" yields no asset from `convertElement`,
whatever its tags, identifier and geometry; and no asset in the result of
`convertToAssets` has the osm_type property "relation". -/
theorem convertElement_relation_dropped (element : OSMElement) (response : OverpassResponse)
    (hrel : element.Typ = "relation") :
    convertElement element = none ∧
    ∀ asset ∈ convertToAssets response,
      asset.Properties.lookup "osm_type" ≠ some (PropVal.str "relation") := by
  constructor
  · have h1 : ¬ ("relation" = "node") := by decide
    have h2 : ¬ ("relation" = "way") := by decide
    simp [convertElement, elementGeometry, hrel, h1, h2]
  · intro asset hmem
    rw [convertToAssets_eq_filterMap, List.mem_filterMap] at hmem
    obtain ⟨e, _, he⟩ := hmem
    obtain ⟨_, _, hg, hp⟩ := convertElement_some e asset he
    have htyp := elementGeometry_some_typ e _ hg
    have hlook : asset.Properties.lookup "osm_type" = some (PropVal.str e.Typ) := by
      rw [hp]
      simp [elementProperties, PropMap.set, List.lookup]
    rw [hlook]
    intro hcontra
    have : e.Typ = "relation" := by simpa using hcontra
    rw [this] at htyp
    revert htyp
    decide

theorem convertElement_relation_dropped_witness :
    convertElement
      { Typ := "relation", ID := 3, Lat := 0, Lon := 0, Tags := [("building", "yes")],
        Geometry := [⟨0, 0⟩, ⟨0, 1⟩] } = none ∧
    ∀ asset ∈ convertToAssets
        { Elements := [{ Typ := "relation", ID := 3, Lat := 0, Lon := 0,
                         Tags := [("building", "yes")], Geometry := [⟨0, 0⟩, ⟨0, 1⟩] }] },
      asset.Properties.lookup "osm_type" ≠ some (PropVal.str "relation") :=
  convertElement_relation_dropped
    { Typ := "relation", ID := 3, Lat := 0, Lon := 0, Tags := [("building", "yes")],
      Geometry := [⟨0, 0⟩, ⟨0, 1⟩] }
    { Elements := [{ Typ := "relation", ID := 3, Lat := 0, Lon := 0,
                     Tags := [("building", "yes")], Geometry := [⟨0, 0⟩, ⟨0, 1⟩] }] }
    rfl

/-- C9, as stated, fails: a node tagged building=yes that also carries a tag
named osm_id with value "abc" is converted, and the emitted property osm_id
holds the identifier 7, not the tag value "abc". -/
theorem elementProperties_tag_overridden :
    List.lookup "osm_id" [("building", "yes"), ("osm_id", "abc")] = some "abc" ∧
    (convertElement
      { Typ := "node", ID := 7, Lat := 0, Lon := 0,
        Tags := [("building", "yes"), ("osm_id", "abc")], Geometry := [] }).map
      (fun asset => asset.Properties.lookup "osm_id") = some (some (PropVal.int 7)) := by
  decide

/-- C9, amended: for every element for which `convertElement` emits an asset,
the property osm_id holds the source identifier and osm_type the source
element type, every tag key other than osm_id and osm_type maps to its
original tag value, and the property keys are exactly the tag keys together
with osm_id and osm_type. -/
theorem convertElement_properties (element : OSMElement) (asset : Asset)
    (h : convertElement element = some asset) :
    asset.Properties.lookup "osm_id" = some (PropVal.int element.ID) ∧
    asset.Properties.lookup "osm_type" = some (PropVal.str element.Typ) ∧
    (∀ k, k ≠ "osm_id" → k ≠ "osm_type" →
      asset.Properties.lookup k = (element.Tags.lookup k).map PropVal.str) ∧
    (∀ k, (asset.Properties.lookup k).isSome = true ↔
      (k = "osm_id" ∨ k = "osm_type" ∨ (element.Tags.lookup k).isSome = true)) := by
  obtain ⟨_, _, _, hp⟩ := convertElement_some element asset h
  have key : ∀ k, asset.Properties.lookup k =
      if k = "osm_type" then some (PropVal.str element.Typ)
      else if k = "osm_id" then some (PropVal.int element.ID)
      else (element.Tags.lookup k).map PropVal.str := by
    intro k
    rw [hp]
    unfold elementProperties PropMap.set
    simp only [List.lookup_cons, lookup_map_str]
    by_cases h1 : k = "osm_type"
    · simp [h1]
    · by_cases h2 : k = "osm_id"
      · subst h2
        simp
      · have e1 : (k == "osm_type") = false := beq_eq_false_iff_ne.mpr h1
        have e2 : (k == "osm_id") = false := beq_eq_false_iff_ne.mpr h2
        simp [h1, h2, e1, e2]
  refine ⟨?_, ?_, ?_, ?_⟩
  · rw [key]; simp
  · rw [key]; simp
  · intro k h1 h2
    rw [key]; simp [h1, h2]
  · intro k
    rw [key]
    by_cases h1 : k = "osm_type"
    · simp [h1]
    · by_cases h2 : k = "osm_id"
      · simp [h2]
      · simp [h1, h2]

theorem convertElement_properties_witness :
    List.lookup "osm_id"
      (elementProperties
        { Typ := "node", ID := 7, Lat := 0, Lon := 0,
          Tags := [("amenity", "hospital")], Geometry := [] }) = some (PropVal.int 7) :=
  (convertElement_properties
    { Typ := "node", ID := 7, Lat := 0, Lon := 0, Tags := [("amenity", "hospital")],
      Geometry := [] }
    { Typ := "hospital", Geometry := Geometry.Point [0, 0],
      Properties := elementProperties
        { Typ := "node", ID := 7, Lat := 0, Lon := 0, Tags := [("amenity", "hospital")],
          Geometry := [] } }
    (by decide)).1

/-! ## Lemmas on the retry loop -/

theorem waited_exec_eq (attempt : Nat) :
    (if attempt > 0 then [Event.wait attempt] else []) ++ [Event.exec attempt]
      = attemptEvents attempt := by
  unfold attemptEvents
  by_cases h : attempt = 0
  · subst h; simp
  · have : attempt > 0 := Nat.pos_of_ne_zero h
    simp [h, this]

theorem attemptCount_flatMap (a n : Nat) :
    attemptCount ((List.range' a n).flatMap attemptEvents) = n := by
  induction n generalizing a with
  | zero => simp [attemptCount]
  | succ n ih =>
    have ih' := ih (a + 1)
    unfold attemptCount at ih' ⊢
    rw [List.range'_succ, List.flatMap_cons, List.filter_append, List.length_append, ih']
    unfold attemptEvents
    by_cases h : a = 0 <;> simp [h, Event.isExec] <;> omega

theorem attemptCount_attemptsTrace (n : Nat) : attemptCount (attemptsTrace n) = n := by
  unfold attemptsTrace
  rw [List.range_eq_range']
  exact attemptCount_flatMap 0 n

theorem attemptCount_append_wait (events : List Event) (j : Nat) :
    attemptCount (events ++ [Event.wait j]) = attemptCount events := by
  simp [attemptCount, List.filter_append, Event.isExec]

/-- The loop reaches a first success: started at iteration `a`, with the
attempts `a .. a+d-1` failing, their waits elapsing and attempt `a+d`
succeeding within the budget, the loop is left by `break` with that
response. -/
theorem retryLoop_success (env : Env) (maxRetries : Int) (query : String)
    (r : OverpassResponse) (d : Nat) :
    ∀ (fuel a : Nat) (response : Option OverpassResponse) (err : Option ExecErr),
      d < fuel → ((a + d : Nat) : Int) ≤ maxRetries →
      (∀ j, a ≤ j → j < a + d → ∃ e, env.exec query j = Except.error e) →
      (∀ j, a ≤ j → j ≤ a + d → env.wait j = none) →
      env.exec query (a + d) = Except.ok r →
      retryLoop env maxRetries query fuel a response err =
        some (LoopExit.done (some r) none, (List.range' a (d + 1)).flatMap attemptEvents) := by
  induction d with
  | zero =>
    intro fuel a response err hfuel hle _ hwait hok
    obtain ⟨f, rfl⟩ : ∃ f, fuel = f + 1 := ⟨fuel - 1, by omega⟩
    have hle' : (a : Int) ≤ maxRetries := by simpa using hle
    have hw : (if a > 0 then env.wait a else none) = none := by
      split_ifs
      · exact hwait a (Nat.le_refl a) (by omega)
      · rfl
    have hok' : env.exec query a = Except.ok r := by simpa using hok
    unfold retryLoop
    simp only [hle', if_true, hw, hok', waited_exec_eq]
    simp
  | succ d ih =>
    intro fuel a response err hfuel hle hfail hwait hok
    obtain ⟨f, rfl⟩ : ∃ f, fuel = f + 1 := ⟨fuel - 1, by omega⟩
    have hle' : (a : Int) ≤ maxRetries := by
      have : (a : Int) ≤ ((a + (d + 1) : Nat) : Int) := by exact_mod_cast Nat.le_add_right a (d + 1)
      omega
    have hw : (if a > 0 then env.wait a else none) = none := by
      split_ifs
      · exact hwait a (Nat.le_refl a) (by omega)
      · rfl
    obtain ⟨e, he⟩ := hfail a (Nat.le_refl a) (by omega)
    have hrec := ih f (a + 1) none (some e) (by omega)
      (by rw [show a + 1 + d = a + (d + 1) by omega]; exact hle)
      (fun j h1 h2 => hfail j (by omega) (by omega))
      (fun j h1 h2 => hwait j (by omega) (by omega))
      (by rw [show a + 1 + d = a + (d + 1) by omega]; exact hok)
    unfold retryLoop
    simp only [hle', if_true, hw, he, hrec]
    rw [List.range'_succ a (d + 1), List.flatMap_cons, ← waited_exec_eq]
    simp

/-- The loop exhausts its budget: started at iteration `a` with `d`
iterations left, all of them failing and their waits elapsing, the loop is
left by its condition with the error of the last attempt, or with the
variables unchanged when no iteration is left. -/
theorem retryLoop_exhausted (env : Env) (maxRetries : Int) (query : String) (d : Nat) :
    ∀ (fuel a : Nat) (response : Option OverpassResponse) (err : Option ExecErr),
      d < fuel → ((a + d : Nat) : Int) = maxRetries + 1 →
      (∀ j, a ≤ j → j < a + d → ∃ e, env.exec query j = Except.error e) →
      (∀ j, a ≤ j → j < a + d → env.wait j = none) →
      ∃ response' err',
        retryLoop env maxRetries query fuel a response err =
          some (LoopExit.done response' err', (List.range' a d).flatMap attemptEvents) ∧
        (d = 0 → response' = response ∧ err' = err) ∧
        (0 < d → response' = none ∧
          Except.error (ε := ExecErr) (α := OverpassResponse) <$> err'
            = some (env.exec query (a + d - 1))) := by
  induction d with
  | zero =>
    intro fuel a response err hfuel hle _ _
    obtain ⟨f, rfl⟩ : ∃ f, fuel = f + 1 := ⟨fuel - 1, by omega⟩
    have hle' : ¬ (a : Int) ≤ maxRetries := by
      have : (a : Int) = maxRetries + 1 := by simpa using hle
      omega
    refine ⟨response, err, ?_, fun _ => ⟨rfl, rfl⟩, fun h => absurd h (by omega)⟩
    unfold retryLoop
    simp [hle']
  | succ d ih =>
    intro fuel a response err hfuel hle hfail hwait
    obtain ⟨f, rfl⟩ : ∃ f, fuel = f + 1 := ⟨fuel - 1, by omega⟩
    have hle' : (a : Int) ≤ maxRetries := by
      have : ((a + (d + 1) : Nat) : Int) = (a : Int) + (d : Int) + 1 := by push_cast; ring
      omega
    have hw : (if a > 0 then env.wait a else none) = none := by
      split_ifs
      · exact hwait a (Nat.le_refl a) (by omega)
      · rfl
    obtain ⟨e, he⟩ := hfail a (Nat.le_refl a) (by omega)
    obtain ⟨response', err', hrec, h0, hpos⟩ := ih f (a + 1) none (some e) (by omega)
      (by rw [show a + 1 + d = a + (d + 1) by omega]; exact hle)
      (fun j h1 h2 => hfail j (by omega) (by omega))
      (fun j h1 h2 => hwait j (by omega) (by omega))
    refine ⟨response', err', ?_, fun h => absurd h (by omega), fun _ => ?_⟩
    · unfold retryLoop
      simp only [hle', if_true, hw, he, hrec]
      rw [List.range'_succ a d, List.flatMap_cons, ← waited_exec_eq]
      simp
    · rcases Nat.eq_zero_or_pos d with hd | hd
      · obtain ⟨h1, h2⟩ := h0 hd
        subst hd
        refine ⟨h1, ?_⟩
        rw [h2]
        simpa using he.symm
      · obtain ⟨h1, h2⟩ := hpos hd
        refine ⟨h1, ?_⟩
        rw [h2]
        congr 2
        omega

/-- The loop is cancelled in a wait: started at iteration `a`, with the
attempts `a .. a+d-1` failing and their waits elapsing, and the context done
in the wait before iteration `a+d`, the loop returns the context error after
that wait. -/
theorem retryLoop_cancelled (env : Env) (maxRetries : Int) (query : String) (ce : CtxErr)
    (d : Nat) :
    ∀ (fuel a : Nat) (response : Option OverpassResponse) (err : Option ExecErr),
      d < fuel → ((a + d : Nat) : Int) ≤ maxRetries → 0 < a + d →
      (∀ j, a ≤ j → j < a + d → ∃ e, env.exec query j = Except.error e) →
      (∀ j, a ≤ j → j < a + d → env.wait j = none) →
      env.wait (a + d) = some ce →
      retryLoop env maxRetries query fuel a response err =
        some (LoopExit.returned ce,
          (List.range' a d).flatMap attemptEvents ++ [Event.wait (a + d)]) := by
  induction d with
  | zero =>
    intro fuel a response err hfuel hle hpos _ _ hce
    obtain ⟨f, rfl⟩ : ∃ f, fuel = f + 1 := ⟨fuel - 1, by omega⟩
    have hle' : (a : Int) ≤ maxRetries := by simpa using hle
    have ha : a > 0 := by omega
    have hw : (if a > 0 then env.wait a else none) = some ce := by
      rw [if_pos ha]; simpa using hce
    unfold retryLoop
    simp only [hle', if_true, hw]
    simp
  | succ d ih =>
    intro fuel a response err hfuel hle _ hfail hwait hce
    obtain ⟨f, rfl⟩ : ∃ f, fuel = f + 1 := ⟨fuel - 1, by omega⟩
    have hle' : (a : Int) ≤ maxRetries := by
      have : ((a + (d + 1) : Nat) : Int) = (a : Int) + (d : Int) + 1 := by push_cast; ring
      omega
    have hw : (if a > 0 then env.wait a else none) = none := by
      split_ifs
      · exact hwait a (Nat.le_refl a) (by omega)
      · rfl
    obtain ⟨e, he⟩ := hfail a (Nat.le_refl a) (by omega)
    have hrec := ih f (a + 1) none (some e) (by omega)
      (by rw [show a + 1 + d = a + (d + 1) by omega]; exact hle) (by omega)
      (fun j h1 h2 => hfail j (by omega) (by omega))
      (fun j h1 h2 => hwait j (by omega) (by omega))
      (by rw [show a + 1 + d = a + (d + 1) by omega]; exact hce)
    unfold retryLoop
    simp only [hle', if_true, hw, he, hrec]
    rw [List.range'_succ a d, List.flatMap_cons, ← waited_exec_eq,
      show a + 1 + d = a + (d + 1) by omega]
    simp

/-- With the fuel `QueryAssets` gives it the loop always ends, and its
events are whole attempts, each after the first preceded by exactly one
wait, followed by one more wait exactly when the loop returned the context
error. -/
theorem retryLoop_shape (env : Env) (maxRetries : Int) (query : String) :
    ∀ (fuel a : Nat) (response : Option OverpassResponse) (err : Option ExecErr),
      (maxRetries + 1 - (a : Int)).toNat < fuel →
      ∃ exit n,
        retryLoop env maxRetries query fuel a response err =
          some (exit, (List.range' a n).flatMap attemptEvents ++
            (match exit with
             | LoopExit.returned _ => [Event.wait (a + n)]
             | LoopExit.done _ _ => [])) ∧
        (∀ ce, exit = LoopExit.returned ce → 0 < a + n ∧ env.wait (a + n) = some ce) := by
  intro fuel
  induction fuel with
  | zero => intro a response err h; omega
  | succ f ih =>
    intro a response err hfuel
    by_cases hle : (a : Int) ≤ maxRetries
    · cases hw : (if a > 0 then env.wait a else none) with
      | some ce =>
        have ha : a > 0 := by
          by_contra hn
          simp [hn] at hw
        refine ⟨LoopExit.returned ce, 0, ?_, ?_⟩
        · unfold retryLoop
          simp only [hle, if_true, hw]
          simp
        · intro ce' hce'
          have : ce' = ce := by cases hce'; rfl
          subst this
          refine ⟨by omega, ?_⟩
          rw [if_pos ha] at hw
          simpa using hw
      | none =>
        cases he : env.exec query a with
        | ok r =>
          refine ⟨LoopExit.done (some r) none, 1, ?_, ?_⟩
          · unfold retryLoop
            simp only [hle, if_true, hw, he, waited_exec_eq]
            simp
          · intro ce hce; cases hce
        | error e =>
          obtain ⟨exit, n, hrec, hret⟩ := ih (a + 1) none (some e) (by push_cast; omega)
          refine ⟨exit, n + 1, ?_, ?_⟩
          · unfold retryLoop
            simp only [hle, if_true, hw, he, hrec]
            rw [List.range'_succ a n, List.flatMap_cons, ← waited_exec_eq,
              show a + (n + 1) = a + 1 + n by omega]
            simp
          · intro ce hce
            rw [show a + (n + 1) = a + 1 + n by omega]
            exact hret ce hce
    · refine ⟨LoopExit.done response err, 0, ?_, ?_⟩
      · unfold retryLoop
        simp [hle]
      · intro ce hce; cases hce

/-! ## Lemmas on `QueryAssets` -/

theorem QueryAssets_of_success (unmarshal : String → Option (List (String × JSON)))
    (env : Env) (N : Nat) (areaGeoJSON : String) (bounds : Bounds)
    (hb : extractBounds unmarshal areaGeoJSON = Except.ok bounds)
    (hw : ∀ i, env.wait i = none) (k : Nat) (r : OverpassResponse) (hk : k ≤ N)
    (hfail : ∀ j, j < k → ∃ e, env.exec (buildQuery bounds) j = Except.error e)
    (hok : env.exec (buildQuery bounds) k = Except.ok r) :
    QueryAssets unmarshal env N areaGeoJSON =
      some (QueryResult.ok (convertToAssets r), attemptsTrace (k + 1)) := by
  have hloop := retryLoop_success env N (buildQuery bounds) r k (loopFuel N) 0 none none
    (by unfold loopFuel; omega) (by simpa using hk)
    (fun j _ h2 => hfail j (by omega)) (fun j _ _ => hw j) (by simpa using hok)
  unfold QueryAssets
  simp only [hb, hloop, attemptsTrace, List.range_eq_range']

theorem QueryAssets_of_exhausted (unmarshal : String → Option (List (String × JSON)))
    (env : Env) (N : Nat) (areaGeoJSON : String) (bounds : Bounds)
    (hb : extractBounds unmarshal areaGeoJSON = Except.ok bounds)
    (hw : ∀ i, env.wait i = none) (e : ExecErr)
    (hfail : ∀ j, j < N → ∃ e', env.exec (buildQuery bounds) j = Except.error e')
    (hlast : env.exec (buildQuery bounds) N = Except.error e) :
    QueryAssets unmarshal env N areaGeoJSON =
      some (QueryResult.error (QueryErr.afterAttempts (N + 1) e), attemptsTrace (N + 1)) := by
  obtain ⟨response', err', hloop, _, hpos⟩ :=
    retryLoop_exhausted env N (buildQuery bounds) (N + 1) (loopFuel N) 0 none none
      (by unfold loopFuel; omega) (by push_cast; ring)
      (fun j _ h2 => by
        rcases Nat.lt_or_ge j N with h | h
        · exact hfail j h
        · have : j = N := by omega
          exact ⟨e, this ▸ hlast⟩)
      (fun j _ _ => hw j)
  obtain ⟨hr, herr⟩ := hpos (by omega)
  have herr' : err' = some e := by
    rw [show 0 + (N + 1) - 1 = N by omega, hlast] at herr
    cases err' with
    | none => simp at herr
    | some e' =>
      simp only [Option.map_eq_map, Option.map_some', Option.some.injEq] at herr
      cases herr
      rfl
  subst hr herr'
  unfold QueryAssets
  simp only [hb, hloop, attemptsTrace, List.range_eq_range']

theorem QueryAssets_of_negative (unmarshal : String → Option (List (String × JSON)))
    (env : Env) (maxRetries : Int) (areaGeoJSON : String) (bounds : Bounds)
    (hb : extractBounds unmarshal areaGeoJSON = Except.ok bounds) (hneg : maxRetries < 0) :
    QueryAssets unmarshal env maxRetries areaGeoJSON =
      some (QueryResult.nilDereference, []) := by
  have hc : ¬ ((0 : Nat) : Int) ≤ maxRetries := by simp; omega
  unfold QueryAssets loopFuel
  simp only [hb]
  unfold retryLoop
  simp only [hc, if_false]

/-! ## Attempts of `QueryAssets` (C4, C5) -/

/-- C4: with `maxRetries = N ≥ 0`, extractable bounds and no cancellation,
`QueryAssets` performs the attempts up to and including the first successful
one, at most `N+1`: if the first success is attempt number `k+1 ≤ N+1` it
returns the conversion of that response after exactly `k+1` attempts, and if
the first `N+1` attempts all fail it returns the error of the last attempt
wrapped with the count `N+1`, after exactly `N+1` attempts. -/
theorem QueryAssets_attempts (unmarshal : String → Option (List (String × JSON)))
    (env : Env) (N : Nat) (areaGeoJSON : String) (bounds : Bounds)
    (hb : extractBounds unmarshal areaGeoJSON = Except.ok bounds)
    (hw : ∀ i, env.wait i = none) :
    (∀ k r, k ≤ N →
      (∀ j, j < k → ∃ e, env.exec (buildQuery bounds) j = Except.error e) →
      env.exec (buildQuery bounds) k = Except.ok r →
      QueryAssets unmarshal env N areaGeoJSON =
        some (QueryResult.ok (convertToAssets r), attemptsTrace (k + 1)) ∧
      attemptCount (attemptsTrace (k + 1)) = k + 1) ∧
    (∀ e, (∀ j, j < N → ∃ e', env.exec (buildQuery bounds) j = Except.error e') →
      env.exec (buildQuery bounds) N = Except.error e →
      QueryAssets unmarshal env N areaGeoJSON =
        some (QueryResult.error (QueryErr.afterAttempts (N + 1) e), attemptsTrace (N + 1)) ∧
      attemptCount (attemptsTrace (N + 1)) = N + 1) :=
  ⟨fun k r hk hfail hok =>
    ⟨QueryAssets_of_success unmarshal env N areaGeoJSON bounds hb hw k r hk hfail hok,
      attemptCount_attemptsTrace _⟩,
   fun e hfail hlast =>
    ⟨QueryAssets_of_exhausted unmarshal env N areaGeoJSON bounds hb hw e hfail hlast,
      attemptCount_attemptsTrace _⟩⟩

theorem QueryAssets_attempts_witness :
    (QueryAssets sampleUnmarshal thirdTimeEnv 3 samplePolygon =
        some (QueryResult.ok (convertToAssets { Elements := [] }), attemptsTrace 3) ∧
      attemptCount (attemptsTrace 3) = 3) ∧
    (QueryAssets sampleUnmarshal alwaysFailEnv 3 samplePolygon =
        some (QueryResult.error (QueryErr.afterAttempts 4 (ExecErr.badStatus 504 "")),
          attemptsTrace 4) ∧
      attemptCount (attemptsTrace 4) = 4) :=
  ⟨(QueryAssets_attempts sampleUnmarshal thirdTimeEnv 3 samplePolygon
      { MinLat := 0, MinLon := 0, MaxLat := 1, MaxLon := 1 } rfl (fun _ => rfl)).1
      2 { Elements := [] } (by decide)
      (fun j hj => ⟨ExecErr.badStatus 504 "", by
        have : j = 0 ∨ j = 1 := by omega
        rcases this with h | h <;> subst h <;> rfl⟩)
      rfl,
   (QueryAssets_attempts sampleUnmarshal alwaysFailEnv 3 samplePolygon
      { MinLat := 0, MinLon := 0, MaxLat := 1, MaxLon := 1 } rfl (fun _ => rfl)).2
      (ExecErr.badStatus 504 "") (fun _ _ => ⟨_, rfl⟩) rfl⟩

/-- C5: once the bounds are extracted, every run of `QueryAssets` returns,
and its events are `n` whole attempts, attempt 0 with no wait before it and
every retry with exactly one wait before it, followed by one more wait only
when the context was done in that wait and the context error was returned.
When the context is done in the wait before retry `j`, `QueryAssets` returns
the context error itself, after exactly the `j` attempts made before, and
performs no further attempt. -/
theorem QueryAssets_wait_cancellation (unmarshal : String → Option (List (String × JSON)))
    (env : Env) (maxRetries : Int) (areaGeoJSON : String) (bounds : Bounds)
    (hb : extractBounds unmarshal areaGeoJSON = Except.ok bounds) :
    (∃ result events n,
      QueryAssets unmarshal env maxRetries areaGeoJSON = some (result, events) ∧
      (events = attemptsTrace n ∨
        (0 < n ∧ events = attemptsTrace n ++ [Event.wait n] ∧
          ∃ ce, env.wait n = some ce ∧ result = QueryResult.error (QueryErr.ctx ce)))) ∧
    (∀ (j : Nat) (ce : CtxErr), 0 < j → (j : Int) ≤ maxRetries →
      (∀ i, i < j → ∃ e, env.exec (buildQuery bounds) i = Except.error e) →
      (∀ i, i < j → env.wait i = none) →
      env.wait j = some ce →
      QueryAssets unmarshal env maxRetries areaGeoJSON =
        some (QueryResult.error (QueryErr.ctx ce), attemptsTrace j ++ [Event.wait j]) ∧
      attemptCount (attemptsTrace j ++ [Event.wait j]) = j) := by
  constructor
  · obtain ⟨exit, n, hloop, hret⟩ :=
      retryLoop_shape env maxRetries (buildQuery bounds) (loopFuel maxRetries) 0 none none
        (by unfold loopFuel; simp)
    cases exit with
    | returned ce =>
      obtain ⟨hn, hce⟩ := hret ce rfl
      simp only [Nat.zero_add] at hn hce hloop
      refine ⟨QueryResult.error (QueryErr.ctx ce), _, n, ?_, Or.inr ⟨hn, rfl, ce, hce, rfl⟩⟩
      unfold QueryAssets
      simp only [hb, hloop, attemptsTrace, List.range_eq_range']
    | done response err =>
      simp only [List.append_nil] at hloop
      cases err with
      | some e =>
        refine ⟨QueryResult.error (QueryErr.afterAttempts (maxRetries + 1) e), _, n, ?_,
          Or.inl rfl⟩
        unfold QueryAssets
        simp only [hb, hloop, attemptsTrace, List.range_eq_range']
      | none =>
        cases response with
        | some r =>
          refine ⟨QueryResult.ok (convertToAssets r), _, n, ?_, Or.inl rfl⟩
          unfold QueryAssets
          simp only [hb, hloop, attemptsTrace, List.range_eq_range']
        | none =>
          refine ⟨QueryResult.nilDereference, _, n, ?_, Or.inl rfl⟩
          unfold QueryAssets
          simp only [hb, hloop, attemptsTrace, List.range_eq_range']
  · intro j ce hj hle hfail hwait hce
    refine ⟨?_, by rw [attemptCount_append_wait, attemptCount_attemptsTrace]⟩
    have hloop := retryLoop_cancelled env maxRetries (buildQuery bounds) ce j
      (loopFuel maxRetries) 0 none none
      (by unfold loopFuel; omega) (by simpa using hle) (by omega)
      (fun i _ h2 => hfail i (by omega)) (fun i _ h2 => hwait i (by omega))
      (by simpa using hce)
    simp only [Nat.zero_add] at hloop
    unfold QueryAssets
    simp only [hb, hloop, attemptsTrace, List.range_eq_range']

theorem QueryAssets_wait_cancellation_witness :
    QueryAssets sampleUnmarshal cancelledEnv 3 samplePolygon =
      some (QueryResult.error (QueryErr.ctx CtxErr.Canceled),
        attemptsTrace 2 ++ [Event.wait 2]) ∧
    attemptCount (attemptsTrace 2 ++ [Event.wait 2]) = 2 :=
  (QueryAssets_wait_cancellation sampleUnmarshal cancelledEnv 3 samplePolygon
    { MinLat := 0, MinLon := 0, MaxLat := 1, MaxLon := 1 } rfl).2
    2 CtxErr.Canceled (by decide) (by decide)
    (fun _ _ => ⟨_, rfl⟩)
    (fun i hi => by
      have : i = 0 ∨ i = 1 := by omega
      rcases this with h | h <;> subst h <;> rfl)
    rfl

/-! ## Lemmas on bounds extraction -/

theorem boundsStep_of_readPair (acc : Bounds) (j : JSON) :
    boundsStep acc j =
      match readPair? j with
      | none => acc
      | some p =>
        { MinLat := if p.2 < acc.MinLat then p.2 else acc.MinLat,
          MinLon := if p.1 < acc.MinLon then p.1 else acc.MinLon,
          MaxLat := if p.2 > acc.MaxLat then p.2 else acc.MaxLat,
          MaxLon := if p.1 > acc.MaxLon then p.1 else acc.MaxLon } := by
  cases j with
  | arr c =>
    by_cases h : c.length < 2
    · simp [boundsStep, readPair?, h]
    · simp [boundsStep, readPair?, h]
  | _ => simp [boundsStep, readPair?]

/-- The loop of `extractBounds` only widens the box, holds every pair it
read, and each side of the result is a side of the start box or a coordinate
it read. -/
theorem foldl_boundsStep (ring : List JSON) :
    ∀ acc : Bounds,
      ((ring.foldl boundsStep acc).MinLon ≤ acc.MinLon ∧
       acc.MaxLon ≤ (ring.foldl boundsStep acc).MaxLon ∧
       (ring.foldl boundsStep acc).MinLat ≤ acc.MinLat ∧
       acc.MaxLat ≤ (ring.foldl boundsStep acc).MaxLat) ∧
      (∀ j ∈ ring, ∀ p, readPair? j = some p →
        (ring.foldl boundsStep acc).MinLon ≤ p.1 ∧ p.1 ≤ (ring.foldl boundsStep acc).MaxLon ∧
        (ring.foldl boundsStep acc).MinLat ≤ p.2 ∧ p.2 ≤ (ring.foldl boundsStep acc).MaxLat) ∧
      (((ring.foldl boundsStep acc).MinLon = acc.MinLon ∨
          ∃ j ∈ ring, ∃ p, readPair? j = some p ∧ (ring.foldl boundsStep acc).MinLon = p.1) ∧
       ((ring.foldl boundsStep acc).MaxLon = acc.MaxLon ∨
          ∃ j ∈ ring, ∃ p, readPair? j = some p ∧ (ring.foldl boundsStep acc).MaxLon = p.1) ∧
       ((ring.foldl boundsStep acc).MinLat = acc.MinLat ∨
          ∃ j ∈ ring, ∃ p, readPair? j = some p ∧ (ring.foldl boundsStep acc).MinLat = p.2) ∧
       ((ring.foldl boundsStep acc).MaxLat = acc.MaxLat ∨
          ∃ j ∈ ring, ∃ p, readPair? j = some p ∧ (ring.foldl boundsStep acc).MaxLat = p.2)) := by
  induction ring with
  | nil =>
    intro acc
    simp
  | cons x ring ih =>
    intro acc
    obtain ⟨⟨m1, m2, m3, m4⟩, hin, a1, a2, a3, a4⟩ := ih (boundsStep acc x)
    have hstep := boundsStep_of_readPair acc x
    simp only [List.foldl_cons]
    cases hx : readPair? x with
    | none =>
      rw [hx] at hstep
      simp only at hstep
      rw [hstep] at m1 m2 m3 m4 hin a1 a2 a3 a4 ⊢
      refine ⟨⟨m1, m2, m3, m4⟩, ?_, ?_, ?_, ?_, ?_⟩
      · intro j hj p hp
        rcases List.mem_cons.mp hj with h | h
        · subst h; rw [hx] at hp; cases hp
        · exact hin j h p hp
      · rcases a1 with h | ⟨j, hj, p, hp, h⟩
        · exact Or.inl h
        · exact Or.inr ⟨j, List.mem_cons_of_mem _ hj, p, hp, h⟩
      · rcases a2 with h | ⟨j, hj, p, hp, h⟩
        · exact Or.inl h
        · exact Or.inr ⟨j, List.mem_cons_of_mem _ hj, p, hp, h⟩
      · rcases a3 with h | ⟨j, hj, p, hp, h⟩
        · exact Or.inl h
        · exact Or.inr ⟨j, List.mem_cons_of_mem _ hj, p, hp, h⟩
      · rcases a4 with h | ⟨j, hj, p, hp, h⟩
        · exact Or.inl h
        · exact Or.inr ⟨j, List.mem_cons_of_mem _ hj, p, hp, h⟩
    | some q =>
      rw [hx] at hstep
      simp only at hstep
      have s1 : (boundsStep acc x).MinLon = if q.1 < acc.MinLon then q.1 else acc.MinLon := by
        rw [hstep]
      have s2 : (boundsStep acc x).MaxLon = if q.1 > acc.MaxLon then q.1 else acc.MaxLon := by
        rw [hstep]
      have s3 : (boundsStep acc x).MinLat = if q.2 < acc.MinLat then q.2 else acc.MinLat := by
        rw [hstep]
      have s4 : (boundsStep acc x).MaxLat = if q.2 > acc.MaxLat then q.2 else acc.MaxLat := by
        rw [hstep]
      refine ⟨⟨?_, ?_, ?_, ?_⟩, ?_, ?_, ?_, ?_, ?_⟩
      · rw [s1] at m1; split_ifs at m1 <;> omega
      · rw [s2] at m2; split_ifs at m2 <;> omega
      · rw [s3] at m3; split_ifs at m3 <;> omega
      · rw [s4] at m4; split_ifs at m4 <;> omega
      · intro j hj p hp
        rcases List.mem_cons.mp hj with h | h
        · subst h
          rw [hx] at hp
          cases hp
          rw [s1] at m1; rw [s2] at m2; rw [s3] at m3; rw [s4] at m4
          refine ⟨?_, ?_, ?_, ?_⟩
          · split_ifs at m1 <;> omega
          · split_ifs at m2 <;> omega
          · split_ifs at m3 <;> omega
          · split_ifs at m4 <;> omega
        · exact hin j h p hp
      · rcases a1 with h | ⟨j, hj, p, hp, h⟩
        · rw [s1] at h
          by_cases hc : q.1 < acc.MinLon
          · rw [if_pos hc] at h
            exact Or.inr ⟨x, List.mem_cons_self _ _, q, hx, h⟩
          · rw [if_neg hc] at h
            exact Or.inl h
        · exact Or.inr ⟨j, List.mem_cons_of_mem _ hj, p, hp, h⟩
      · rcases a2 with h | ⟨j, hj, p, hp, h⟩
        · rw [s2] at h
          by_cases hc : q.1 > acc.MaxLon
          · rw [if_pos hc] at h
            exact Or.inr ⟨x, List.mem_cons_self _ _, q, hx, h⟩
          · rw [if_neg hc] at h
            exact Or.inl h
        · exact Or.inr ⟨j, List.mem_cons_of_mem _ hj, p, hp, h⟩
      · rcases a3 with h | ⟨j, hj, p, hp, h⟩
        · rw [s3] at h
          by_cases hc : q.2 < acc.MinLat
          · rw [if_pos hc] at h
            exact Or.inr ⟨x, List.mem_cons_self _ _, q, hx, h⟩
          · rw [if_neg hc] at h
            exact Or.inl h
        · exact Or.inr ⟨j, List.mem_cons_of_mem _ hj, p, hp, h⟩
      · rcases a4 with h | ⟨j, hj, p, hp, h⟩
        · rw [s4] at h
          by_cases hc : q.2 > acc.MaxLat
          · rw [if_pos hc] at h
            exact Or.inr ⟨x, List.mem_cons_self _ _, q, hx, h⟩
          · rw [if_neg hc] at h
            exact Or.inl h
        · exact Or.inr ⟨j, List.mem_cons_of_mem _ hj, p, hp, h⟩

theorem firstRing_eq_some (geoData : List (String × JSON)) (ring : List JSON)
    (h : firstRing geoData = some ring) :
    ∃ rest, geoData.lookup "coordinates" = some (JSON.arr (JSON.arr ring :: rest)) := by
  unfold firstRing at h
  split at h
  · rename_i ring' rest heq
    simp only [Option.some.injEq] at h
    subst h
    exact ⟨rest, heq⟩
  · cases h

theorem boundsOfObject_no_ring (geoData : List (String × JSON))
    (h : firstRing geoData = none) :
    ∃ e, boundsOfObject geoData = Except.error e := by
  unfold firstRing at h
  unfold boundsOfObject
  cases hl : geoData.lookup "coordinates" with
  | none => exact ⟨_, rfl⟩
  | some j =>
    rw [hl] at h
    cases j with
    | arr coords =>
      cases coords with
      | nil => exact ⟨_, rfl⟩
      | cons x rest =>
        cases x with
        | arr ring => simp at h
        | _ => exact ⟨_, rfl⟩
    | _ => exact ⟨_, rfl⟩

theorem boundsOfObject_ring (geoData : List (String × JSON)) (ring : List JSON)
    (h : firstRing geoData = some ring) :
    boundsOfObject geoData =
      match ring.head?.bind readPair? with
      | none =>
        Except.error (if ring.length = 0 then BoundsErr.invalidPolygon
          else BoundsErr.invalidCoordinate)
      | some p =>
        Except.ok (ring.foldl boundsStep
          { MinLat := p.2, MinLon := p.1, MaxLat := p.2, MaxLon := p.1 }) := by
  obtain ⟨rest, hl⟩ := firstRing_eq_some geoData ring h
  unfold boundsOfObject
  rw [hl]
  cases ring with
  | nil => simp [elemAt]
  | cons x ring =>
    cases x with
    | arr c =>
      by_cases hc : c.length < 2
      · simp [elemAt, readPair?, hc]
      · simp [elemAt, readPair?, hc]
    | _ => simp [elemAt, readPair?]

theorem readPair_of_numericPair (j : JSON) (p : Int × Int) (h : numericPair? j = some p) :
    readPair? j = some p := by
  unfold numericPair? at h
  split at h
  · simp only [Option.some.injEq] at h
    subst h
    simp [readPair?, elemAt, JSON.asFloat]
  · cases h

theorem readPair_isSome_iff (j : JSON) : (readPair? j).isSome = true ↔ isPair j = true := by
  cases j with
  | arr c =>
    by_cases hc : c.length < 2
    · simp [readPair?, isPair, hc]
    · simp [readPair?, isPair, hc]; omega
  | _ => simp [readPair?, isPair]

theorem readPair_eq_numericPair (ring : List JSON) (hwt : wellTyped ring) (j : JSON)
    (hj : j ∈ ring) : readPair? j = numericPair? j := by
  cases hr : readPair? j with
  | none =>
    cases hn : numericPair? j with
    | none => rfl
    | some p => rw [readPair_of_numericPair j p hn] at hr; cases hr
  | some q =>
    have hp : isPair j = true := (readPair_isSome_iff j).mp (by simp [hr])
    have hsome := hwt j hj hp
    cases hn : numericPair? j with
    | none => simp [hn] at hsome
    | some p =>
      rw [readPair_of_numericPair j p hn] at hr
      exact hr.symm

theorem extractBounds_ring (unmarshal : String → Option (List (String × JSON)))
    (text : String) (geoData : List (String × JSON)) (ring : List JSON)
    (hu : unmarshal text = some geoData) (hr : firstRing geoData = some ring) :
    extractBounds unmarshal text =
      match ring.head?.bind readPair? with
      | none =>
        Except.error (if ring.length = 0 then BoundsErr.invalidPolygon
          else BoundsErr.invalidCoordinate)
      | some p =>
        Except.ok (ring.foldl boundsStep
          { MinLat := p.2, MinLon := p.1, MaxLat := p.2, MaxLon := p.1 }) := by
  unfold extractBounds
  rw [hu]
  exact boundsOfObject_ring geoData ring hr

/-- What holds of every successful extraction: the box is ordered on both
axes and holds every usable pair of the first ring. -/
theorem extractBounds_ordered_contains (unmarshal : String → Option (List (String × JSON)))
    (text : String) (geoData : List (String × JSON)) (ring : List JSON) (b : Bounds)
    (hu : unmarshal text = some geoData) (hr : firstRing geoData = some ring)
    (hb : extractBounds unmarshal text = Except.ok b) :
    b.MinLat ≤ b.MaxLat ∧ b.MinLon ≤ b.MaxLon ∧
    ∀ p ∈ usablePairs ring,
      b.MinLon ≤ p.1 ∧ p.1 ≤ b.MaxLon ∧ b.MinLat ≤ p.2 ∧ p.2 ≤ b.MaxLat := by
  rw [extractBounds_ring unmarshal text geoData ring hu hr] at hb
  cases hh : ring.head?.bind readPair? with
  | none => rw [hh] at hb; cases hb
  | some q =>
    rw [hh] at hb
    simp only [Except.ok.injEq] at hb
    obtain ⟨⟨m1, m2, m3, m4⟩, hin, _⟩ := foldl_boundsStep ring
      { MinLat := q.2, MinLon := q.1, MaxLat := q.2, MaxLon := q.1 }
    rw [hb] at m1 m2 m3 m4 hin
    simp only at m1 m2 m3 m4
    refine ⟨by omega, by omega, ?_⟩
    intro p hp
    obtain ⟨j, hj, hjp⟩ := List.mem_filterMap.mp hp
    exact hin j hj p (readPair_of_numericPair j p hjp)

/-! ## Bounds extraction (C6, C7) -/

/-- C6, at the failing input: for the payload whose first ring is the pair
of strings ["a","b"] followed by [5,5], the only pair with two numeric
components is (5,5), yet `extractBounds` returns the box from (0,0) to (5,5),
which is not that point. -/
theorem extractBounds_text_pair_widens :
    (sampleUnmarshal textPairPayload).bind firstRing =
      some [JSON.arr [JSON.str "a", JSON.str "b"], JSON.arr [JSON.num 5, JSON.num 5]] ∧
    usablePairs [JSON.arr [JSON.str "a", JSON.str "b"], JSON.arr [JSON.num 5, JSON.num 5]]
      = [(5, 5)] ∧
    extractBounds sampleUnmarshal textPairPayload
      = Except.ok { MinLat := 0, MinLon := 0, MaxLat := 5, MaxLon := 5 } :=
  ⟨rfl, rfl, rfl⟩

/-- C7, as stated, fails: for the payload whose first ring is the
one-component entry [1] followed by [5,5], a usable pair exists, yet
`extractBounds` fails on the first entry instead of skipping it. -/
theorem extractBounds_first_entry_fatal :
    (sampleUnmarshal shortFirstPayload).bind firstRing =
      some [JSON.arr [JSON.num 1], JSON.arr [JSON.num 5, JSON.num 5]] ∧
    usablePairs [JSON.arr [JSON.num 1], JSON.arr [JSON.num 5, JSON.num 5]] = [(5, 5)] ∧
    extractBounds sampleUnmarshal shortFirstPayload
      = Except.error BoundsErr.invalidCoordinate :=
  ⟨rfl, rfl, rfl⟩

/-- C7, amended: `extractBounds` fails when the payload does not decode and
when the decoded payload has no first ring.  When there is a first ring in
which every entry of at least two components has numeric longitude and
latitude, `extractBounds` fails exactly when the ring is empty or its first
entry is not such a pair; and when it succeeds, entries of fewer than two
components are skipped: each side of the box is a lower or upper bound of
the usable pairs and is attained by one of them. -/
theorem extractBounds_failure_and_bounds
    (unmarshal : String → Option (List (String × JSON))) (text : String) :
    (unmarshal text = none →
      extractBounds unmarshal text = Except.error BoundsErr.invalidGeoJSON) ∧
    (∀ geoData, unmarshal text = some geoData → firstRing geoData = none →
      ∃ e, extractBounds unmarshal text = Except.error e) ∧
    (∀ geoData ring, unmarshal text = some geoData → firstRing geoData = some ring →
      wellTyped ring →
      ((∃ e, extractBounds unmarshal text = Except.error e) ↔
        ring.head?.bind numericPair? = none) ∧
      (∀ b, extractBounds unmarshal text = Except.ok b →
        (∀ p ∈ usablePairs ring,
          b.MinLon ≤ p.1 ∧ p.1 ≤ b.MaxLon ∧ b.MinLat ≤ p.2 ∧ p.2 ≤ b.MaxLat) ∧
        (∃ p ∈ usablePairs ring, b.MinLon = p.1) ∧
        (∃ p ∈ usablePairs ring, b.MaxLon = p.1) ∧
        (∃ p ∈ usablePairs ring, b.MinLat = p.2) ∧
        (∃ p ∈ usablePairs ring, b.MaxLat = p.2))) := by
  refine ⟨?_, ?_, ?_⟩
  · intro hu
    simp [extractBounds, hu]
  · intro geoData hu hr
    unfold extractBounds
    rw [hu]
    exact boundsOfObject_no_ring geoData hr
  · intro geoData ring hu hr hwt
    have hform := extractBounds_ring unmarshal text geoData ring hu hr
    have hhead : ring.head?.bind readPair? = ring.head?.bind numericPair? := by
      cases ring with
      | nil => rfl
      | cons x ring =>
        simp only [List.head?_cons, Option.some_bind]
        exact readPair_eq_numericPair _ hwt x (List.mem_cons_self _ _)
    constructor
    · rw [hform, hhead]
      cases ring.head?.bind numericPair? with
      | none => simp
      | some p => simp
    · intro b hb
      refine ⟨(extractBounds_ordered_contains unmarshal text geoData ring b hu hr hb).2.2, ?_⟩
      rw [hform] at hb
      cases hh : ring.head?.bind readPair? with
      | none => rw [hh] at hb; cases hb
      | some q =>
        rw [hh] at hb
        simp only [Except.ok.injEq] at hb
        have hq : q ∈ usablePairs ring := by
          cases ring with
          | nil => simp at hh
          | cons x ring =>
            simp only [List.head?_cons, Option.some_bind] at hh
            rw [readPair_eq_numericPair _ hwt x (List.mem_cons_self _ _)] at hh
            exact List.mem_filterMap.mpr ⟨x, List.mem_cons_self _ _, hh⟩
        have hmem : ∀ j ∈ ring, ∀ p, readPair? j = some p → p ∈ usablePairs ring := by
          intro j hj p hp
          rw [readPair_eq_numericPair ring hwt j hj] at hp
          exact List.mem_filterMap.mpr ⟨j, hj, hp⟩
        obtain ⟨_, _, a1, a2, a3, a4⟩ := foldl_boundsStep ring
          { MinLat := q.2, MinLon := q.1, MaxLat := q.2, MaxLon := q.1 }
        rw [hb] at a1 a2 a3 a4
        simp only at a1 a2 a3 a4
        refine ⟨?_, ?_, ?_, ?_⟩
        · rcases a1 with h | ⟨j, hj, p, hp, h⟩
          · exact ⟨q, hq, h⟩
          · exact ⟨p, hmem j hj p hp, h⟩
        · rcases a2 with h | ⟨j, hj, p, hp, h⟩
          · exact ⟨q, hq, h⟩
          · exact ⟨p, hmem j hj p hp, h⟩
        · rcases a3 with h | ⟨j, hj, p, hp, h⟩
          · exact ⟨q, hq, h⟩
          · exact ⟨p, hmem j hj p hp, h⟩
        · rcases a4 with h | ⟨j, hj, p, hp, h⟩
          · exact ⟨q, hq, h⟩
          · exact ⟨p, hmem j hj p hp, h⟩

theorem extractBounds_failure_and_bounds_witness :
    (∃ p ∈ usablePairs
        [JSON.arr [JSON.num 0, JSON.num 0], JSON.arr [JSON.num 7],
          JSON.arr [JSON.num 1, JSON.num 1]],
      ({ MinLat := 0, MinLon := 0, MaxLat := 1, MaxLon := 1 } : Bounds).MinLon = p.1) ∧
    (∃ p ∈ usablePairs
        [JSON.arr [JSON.num 0, JSON.num 0], JSON.arr [JSON.num 7],
          JSON.arr [JSON.num 1, JSON.num 1]],
      ({ MinLat := 0, MinLon := 0, MaxLat := 1, MaxLon := 1 } : Bounds).MaxLon = p.1) :=
  ⟨((((extractBounds_failure_and_bounds sampleUnmarshal skipPayload).2.2
      [("coordinates",
        JSON.arr [JSON.arr [JSON.arr [JSON.num 0, JSON.num 0], JSON.arr [JSON.num 7],
          JSON.arr [JSON.num 1, JSON.num 1]]])]
      [JSON.arr [JSON.num 0, JSON.num 0], JSON.arr [JSON.num 7],
        JSON.arr [JSON.num 1, JSON.num 1]]
      rfl rfl (by unfold wellTyped; decide)).2
      { MinLat := 0, MinLon := 0, MaxLat := 1, MaxLon := 1 } rfl).2).1,
   ((((extractBounds_failure_and_bounds sampleUnmarshal skipPayload).2.2
      [("coordinates",
        JSON.arr [JSON.arr [JSON.arr [JSON.num 0, JSON.num 0], JSON.arr [JSON.num 7],
          JSON.arr [JSON.num 1, JSON.num 1]]])]
      [JSON.arr [JSON.num 0, JSON.num 0], JSON.arr [JSON.num 7],
        JSON.arr [JSON.num 1, JSON.num 1]]
      rfl rfl (by unfold wellTyped; decide)).2
      { MinLat := 0, MinLon := 0, MaxLat := 1, MaxLon := 1 } rfl).2).2.1⟩

/-! ## Lemmas on the query -/

set_option maxRecDepth 100000 in
theorem buildQueryOf_eq_renderQuery {F : Type} (fmtF : F → String) (bounds : BoundsOf F) :
    buildQueryOf fmtF bounds = renderQuery (bboxTextOf fmtF bounds) := by
  unfold buildQueryOf renderQuery queryClauses queryFooter clauseLeads categorySelectors
    clauseText
  apply String.ext
  simp [List.zipWith, List.foldr, String.data_append]

theorem bboxTextOf_eq_bboxSpec {F : Type} (fmtF : F → String) (bounds : BoundsOf F) :
    bboxTextOf fmtF bounds = bboxSpec fmtF bounds := by
  unfold bboxTextOf bboxSpec
  apply String.ext
  simp [String.intercalate, String.intercalate.go, String.data_append]

theorem foldr_append_footer (pieces : List String) (footer : String) :
    pieces.foldr (fun clause rest => clause ++ rest) footer =
      pieces.foldr (fun clause rest => clause ++ rest) "" ++ footer := by
  induction pieces with
  | nil => simp
  | cons a l ih => simp only [List.foldr_cons, ih, String.append_assoc]

theorem foldr_append_mem (pieces : List String) (x : String) (hx : x ∈ pieces) :
    ∃ pre post, pieces.foldr (fun clause rest => clause ++ rest) "" = pre ++ x ++ post := by
  induction pieces with
  | nil => cases hx
  | cons a l ih =>
    rcases List.mem_cons.mp hx with h | h
    · subst h
      exact ⟨"", l.foldr (fun clause rest => clause ++ rest) "", by simp⟩
    · obtain ⟨pre, post, hl⟩ := ih h
      exact ⟨a ++ pre, post, by simp only [List.foldr_cons, hl, String.append_assoc]⟩

theorem clause_mem_queryClauses (bbox selector : String)
    (h : selector ∈ categorySelectors) :
    ∃ lead, lead ++ clauseText selector bbox ∈ queryClauses bbox := by
  unfold categorySelectors at h
  simp only [List.mem_cons, List.mem_singleton, List.not_mem_nil, or_false] at h
  unfold queryClauses clauseLeads categorySelectors
  simp only [List.zipWith]
  rcases h with h | h | h | h | h | h | h | h | h | h | h <;> subst h
  · exact ⟨_,
      List.mem_cons_self _ _⟩
  · exact ⟨_,
      List.mem_cons_of_mem _ (List.mem_cons_self _ _)⟩
  · exact ⟨_,
      List.mem_cons_of_mem _ (List.mem_cons_of_mem _ (List.mem_cons_self _ _))⟩
  · exact ⟨_,
      List.mem_cons_of_mem _ (List.mem_cons_of_mem _ (List.mem_cons_of_mem _ (List.mem_cons_self _ _)))⟩
  · exact ⟨_,
      List.mem_cons_of_mem _ (List.mem_cons_of_mem _ (List.mem_cons_of_mem _ (List.mem_cons_of_mem _ (List.mem_cons_self _ _))))⟩
  · exact ⟨_,
      List.mem_cons_of_mem _ (List.mem_cons_of_mem _ (List.mem_cons_of_mem _ (List.mem_cons_of_mem _ (List.mem_cons_of_mem _ (List.mem_cons_self _ _)))))⟩
  · exact ⟨_,
      List.mem_cons_of_mem _ (List.mem_cons_of_mem _ (List.mem_cons_of_mem _ (List.mem_cons_of_mem _ (List.mem_cons_of_mem _ (List.mem_cons_of_mem _ (List.mem_cons_self _ _))))))⟩
  · exact ⟨_,
      List.mem_cons_of_mem _ (List.mem_cons_of_mem _ (List.mem_cons_of_mem _ (List.mem_cons_of_mem _ (List.mem_cons_of_mem _ (List.mem_cons_of_mem _ (List.mem_cons_of_mem _ (List.mem_cons_self _ _)))))))⟩
  · exact ⟨_,
      List.mem_cons_of_mem _ (List.mem_cons_of_mem _ (List.mem_cons_of_mem _ (List.mem_cons_of_mem _ (List.mem_cons_of_mem _ (List.mem_cons_of_mem _ (List.mem_cons_of_mem _ (List.mem_cons_of_mem _ (List.mem_cons_self _ _))))))))⟩
  · exact ⟨_,
      List.mem_cons_of_mem _ (List.mem_cons_of_mem _ (List.mem_cons_of_mem _ (List.mem_cons_of_mem _ (List.mem_cons_of_mem _ (List.mem_cons_of_mem _ (List.mem_cons_of_mem _ (List.mem_cons_of_mem _ (List.mem_cons_of_mem _ (List.mem_cons_self _ _)))))))))⟩
  · exact ⟨_,
      List.mem_cons_of_mem _ (List.mem_cons_of_mem _ (List.mem_cons_of_mem _ (List.mem_cons_of_mem _ (List.mem_cons_of_mem _ (List.mem_cons_of_mem _ (List.mem_cons_of_mem _ (List.mem_cons_of_mem _ (List.mem_cons_of_mem _ (List.mem_cons_of_mem _ (List.mem_cons_self _ _))))))))))⟩

/-! ## The query (C13) -/

/-- C13: `buildQuery` depends on the four fields of the bounds only: two
clients, whatever their URL, timeout, retry count and delay, build the same
query from bounds that agree on the four fields.  Whatever the `float64`
values and their rendering by `%f`, the bounding-box text is the four
rendered numbers min-lat, min-lon, max-lat, max-lon separated by commas; the
query is the eleven category clauses in order, each carrying that same text,
followed by the `out geom` directive. -/
theorem buildQuery_pure_layout {F : Type} (fmtF : F → String) (c₁ c₂ : OverpassClient)
    (b₁ b₂ : BoundsOf F)
    (hMinLat : b₁.MinLat = b₂.MinLat) (hMinLon : b₁.MinLon = b₂.MinLon)
    (hMaxLat : b₁.MaxLat = b₂.MaxLat) (hMaxLon : b₁.MaxLon = b₂.MaxLon) :
    c₁.buildQuery fmtF b₁ = c₂.buildQuery fmtF b₂ ∧
    bboxTextOf fmtF b₁ =
      String.intercalate ","
        [fmtF b₁.MinLat, fmtF b₁.MinLon, fmtF b₁.MaxLat, fmtF b₁.MaxLon] ∧
    c₁.buildQuery fmtF b₁ = renderQuery (bboxTextOf fmtF b₁) ∧
    categorySelectors.length = 11 ∧
    (∀ selector ∈ categorySelectors, ∃ pre post,
      c₁.buildQuery fmtF b₁ =
        pre ++ clauseText selector (bboxTextOf fmtF b₁) ++ post ++ queryFooter) := by
  have hb : b₁ = b₂ := by
    cases b₁; cases b₂
    simp only at hMinLat hMinLon hMaxLat hMaxLon
    subst hMinLat hMinLon hMaxLat hMaxLon
    rfl
  subst hb
  refine ⟨rfl, bboxTextOf_eq_bboxSpec fmtF b₁, buildQueryOf_eq_renderQuery fmtF b₁, rfl, ?_⟩
  intro selector hsel
  obtain ⟨lead, hmem⟩ := clause_mem_queryClauses (bboxTextOf fmtF b₁) selector hsel
  obtain ⟨pre, post, hjoin⟩ := foldr_append_mem (queryClauses (bboxTextOf fmtF b₁)) _ hmem
  refine ⟨pre ++ lead, post, ?_⟩
  show buildQueryOf fmtF b₁ = _
  rw [buildQueryOf_eq_renderQuery, renderQuery, foldr_append_footer, hjoin]
  simp only [String.append_assoc]

theorem buildQuery_pure_layout_witness :
    (NewOverpassClient "https://overpass-api.de/api/interpreter" 60000000000 3
        2000000000).buildQuery sampleFormatF sampleBounds =
      (NewOverpassClient "http://localhost:8080" 1 0 0).buildQuery sampleFormatF
        sampleBounds ∧
    bboxTextOf sampleFormatF sampleBounds = "-0.000000,0.500000,1.000000,1.500000" ∧
    (∃ pre post,
      (NewOverpassClient "https://overpass-api.de/api/interpreter" 60000000000 3
        2000000000).buildQuery sampleFormatF sampleBounds =
      pre ++ "node[\"power\"=\"pole\"](-0.000000,0.500000,1.000000,1.500000);\n" ++ post ++
        "\t\t);\n\t\tout geom;\n\t") :=
  ⟨(buildQuery_pure_layout sampleFormatF
      (NewOverpassClient "https://overpass-api.de/api/interpreter" 60000000000 3 2000000000)
      (NewOverpassClient "http://localhost:8080" 1 0 0) sampleBounds sampleBounds
      rfl rfl rfl rfl).1,
   (buildQuery_pure_layout sampleFormatF
      (NewOverpassClient "https://overpass-api.de/api/interpreter" 60000000000 3 2000000000)
      (NewOverpassClient "http://localhost:8080" 1 0 0) sampleBounds sampleBounds
      rfl rfl rfl rfl).2.1,
   (buildQuery_pure_layout sampleFormatF
      (NewOverpassClient "https://overpass-api.de/api/interpreter" 60000000000 3 2000000000)
      (NewOverpassClient "http://localhost:8080" 1 0 0) sampleBounds sampleBounds
      rfl rfl rfl rfl).2.2.2.2 "node[\"power\"=\"pole\"]" (by decide)⟩

/-! ## The response reaching `convertToAssets` (C14) -/

theorem attemptCount_waited_exec (attempt : Nat) (events : List Event) :
    0 < attemptCount
      ((if attempt > 0 then [Event.wait attempt] else []) ++ Event.exec attempt :: events) := by
  unfold attemptCount
  by_cases h : attempt > 0 <;> simp [h, List.filter_cons, Event.isExec]

/-- When the loop is left past its end, either its condition was false at
once and the variables are untouched, or at least one attempt was made and
the variables hold the response of a successful attempt and no error, or no
response and the error of a failed attempt. -/
theorem retryLoop_done (env : Env) (maxRetries : Int) (query : String) :
    ∀ (fuel a : Nat) (response₀ : Option OverpassResponse) (err₀ : Option ExecErr)
      (response : Option OverpassResponse) (err : Option ExecErr) (events : List Event),
      retryLoop env maxRetries query fuel a response₀ err₀ =
        some (LoopExit.done response err, events) →
      (¬ (a : Int) ≤ maxRetries ∧ events = [] ∧ response = response₀ ∧ err = err₀) ∨
      ((a : Int) ≤ maxRetries ∧ 0 < attemptCount events ∧
        ((∃ k r, env.exec query k = Except.ok r ∧ response = some r ∧ err = none) ∨
         (response = none ∧ ∃ e, err = some e))) := by
  intro fuel
  induction fuel with
  | zero =>
    intro a response₀ err₀ response err events h
    simp [retryLoop] at h
  | succ f ih =>
    intro a response₀ err₀ response err events h
    unfold retryLoop at h
    by_cases hle : (a : Int) ≤ maxRetries
    · right
      simp only [hle, if_true] at h
      cases hw : (if a > 0 then env.wait a else none) with
      | some ce =>
        rw [hw] at h
        simp at h
      | none =>
        rw [hw] at h
        simp only at h
        cases he : env.exec query a with
        | ok r =>
          rw [he] at h
          simp only [Option.some.injEq, Prod.mk.injEq, LoopExit.done.injEq] at h
          obtain ⟨⟨h1, h2⟩, h3⟩ := h
          refine ⟨hle, ?_, Or.inl ⟨a, r, he, h1.symm, h2.symm⟩⟩
          rw [← h3]
          exact attemptCount_waited_exec a []
        | error e =>
          rw [he] at h
          simp only at h
          cases hrec : retryLoop env maxRetries query f (a + 1) none (some e) with
          | none =>
            rw [hrec] at h
            cases h
          | some p =>
            obtain ⟨exit, events'⟩ := p
            rw [hrec] at h
            simp only [Option.some.injEq, Prod.mk.injEq] at h
            obtain ⟨h1, h2⟩ := h
            subst h1
            refine ⟨hle, ?_, ?_⟩
            · rw [← h2]
              exact attemptCount_waited_exec a events'
            · rcases ih (a + 1) none (some e) response err events' hrec with
                ⟨_, _, hr, herr⟩ | ⟨_, _, hcase⟩
              · exact Or.inr ⟨hr, e, herr⟩
              · exact hcase
    · left
      simp only [hle, if_false, Option.some.injEq, Prod.mk.injEq, LoopExit.done.injEq] at h
      obtain ⟨⟨h1, h2⟩, h3⟩ := h
      exact ⟨hle, h3.symm, h1.symm, h2.symm⟩

/-- The result of `QueryAssets` read off the way the loop was left. -/
theorem QueryAssets_of_loop (unmarshal : String → Option (List (String × JSON)))
    (env : Env) (maxRetries : Int) (areaGeoJSON : String) (bounds : Bounds)
    (hb : extractBounds unmarshal areaGeoJSON = Except.ok bounds)
    (result : QueryResult) (events : List Event)
    (hq : QueryAssets unmarshal env maxRetries areaGeoJSON = some (result, events)) :
    ∃ exit, retryLoop env maxRetries (buildQuery bounds) (loopFuel maxRetries) 0 none none =
        some (exit, events) ∧
      result =
        match exit with
        | LoopExit.returned e => QueryResult.error (QueryErr.ctx e)
        | LoopExit.done response err =>
          match err with
          | some e => QueryResult.error (QueryErr.afterAttempts (maxRetries + 1) e)
          | none =>
            match response with
            | some r => QueryResult.ok (convertToAssets r)
            | none => QueryResult.nilDereference := by
  unfold QueryAssets at hq
  simp only [hb] at hq
  cases hloop : retryLoop env maxRetries (buildQuery bounds) (loopFuel maxRetries) 0 none none
    with
  | none => rw [hloop] at hq; cases hq
  | some p =>
    obtain ⟨exit, events'⟩ := p
    rw [hloop] at hq
    cases exit with
    | returned ce =>
      simp only [Option.some.injEq, Prod.mk.injEq] at hq
      exact ⟨_, by rw [hq.2], hq.1.symm⟩
    | done response err =>
      cases err with
      | some e =>
        simp only [Option.some.injEq, Prod.mk.injEq] at hq
        exact ⟨_, by rw [hq.2], hq.1.symm⟩
      | none =>
        cases response with
        | some r =>
          simp only [Option.some.injEq, Prod.mk.injEq] at hq
          exact ⟨_, by rw [hq.2], hq.1.symm⟩
        | none =>
          simp only [Option.some.injEq, Prod.mk.injEq] at hq
          exact ⟨_, by rw [hq.2], hq.1.symm⟩

/-- C14: once the bounds are extracted, `QueryAssets` applies
`convertToAssets` to a nil response if and only if `maxRetries < 0`.  For a
negative `maxRetries` no attempt is made and the nil response is
dereferenced; for `maxRetries ≥ 0` every successful result comes after at
least one attempt and is the conversion of the response of a successful
attempt.  The configuration loader hands on whatever number `MAX_RETRIES`
parses to, negative ones included. -/
theorem QueryAssets_nil_response_iff (unmarshal : String → Option (List (String × JSON)))
    (env : Env) (maxRetries : Int) (areaGeoJSON : String) (bounds : Bounds)
    (hb : extractBounds unmarshal areaGeoJSON = Except.ok bounds) :
    ((∃ events, QueryAssets unmarshal env maxRetries areaGeoJSON =
        some (QueryResult.nilDereference, events)) ↔ maxRetries < 0) ∧
    (maxRetries < 0 →
      QueryAssets unmarshal env maxRetries areaGeoJSON =
        some (QueryResult.nilDereference, []) ∧
      attemptCount ([] : List Event) = 0) ∧
    (0 ≤ maxRetries → ∀ assets events,
      QueryAssets unmarshal env maxRetries areaGeoJSON =
        some (QueryResult.ok assets, events) →
      0 < attemptCount events ∧
      ∃ k r, env.exec (buildQuery bounds) k = Except.ok r ∧ assets = convertToAssets r) ∧
    (∀ (getEnv : String → String → String) (parseDuration atoi : String → Option Int)
        (timeout retries delay : Int),
      parseDuration (getEnv "HTTP_TIMEOUT" "60s") = some timeout →
      atoi (getEnv "MAX_RETRIES" "3") = some retries →
      parseDuration (getEnv "RETRY_DELAY" "2s") = some delay →
      ∃ cfg, LoadConfig getEnv parseDuration atoi = some cfg ∧
        (NewInfrastructureServer cfg).maxRetries = retries) := by
  refine ⟨⟨?_, ?_⟩, ?_, ?_, ?_⟩
  · rintro ⟨events, hq⟩
    by_contra hnn
    obtain ⟨exit, hloop, hres⟩ :=
      QueryAssets_of_loop unmarshal env maxRetries areaGeoJSON bounds hb _ _ hq
    cases exit with
    | returned ce => cases hres
    | done response err =>
      cases err with
      | some e => cases hres
      | none =>
        cases response with
        | some r => cases hres
        | none =>
          rcases retryLoop_done env maxRetries _ _ _ _ _ _ _ _ hloop with
            ⟨hneg, _⟩ | ⟨_, _, ⟨_, _, _, hr, _⟩ | ⟨_, _, he⟩⟩
          · apply hneg
            push_cast
            omega
          · cases hr
          · cases he
  · intro hneg
    exact ⟨[], QueryAssets_of_negative unmarshal env maxRetries areaGeoJSON bounds hb hneg⟩
  · intro hneg
    exact ⟨QueryAssets_of_negative unmarshal env maxRetries areaGeoJSON bounds hb hneg, rfl⟩
  · intro hnn assets events hq
    obtain ⟨exit, hloop, hres⟩ :=
      QueryAssets_of_loop unmarshal env maxRetries areaGeoJSON bounds hb _ _ hq
    cases exit with
    | returned ce => cases hres
    | done response err =>
      cases err with
      | some e => cases hres
      | none =>
        cases response with
        | none => cases hres
        | some r =>
          simp only [QueryResult.ok.injEq] at hres
          rcases retryLoop_done env maxRetries _ _ _ _ _ _ _ _ hloop with
            ⟨hneg, _⟩ | ⟨_, hcount, ⟨k, r', hk, hr, _⟩ | ⟨hr, _⟩⟩
          · exact absurd (by push_cast; omega) hneg
          · simp only [Option.some.injEq] at hr
            subst hr
            exact ⟨hcount, k, r, hk, hres⟩
          · cases hr
  · intro getEnv parseDuration atoi timeout retries delay ht hr hd
    simp only [LoadConfig, ht, hr, hd]
    exact ⟨_, rfl, rfl⟩

theorem QueryAssets_nil_response_iff_witness :
    (QueryAssets sampleUnmarshal alwaysFailEnv (-1) samplePolygon =
        some (QueryResult.nilDereference, []) ∧
      attemptCount ([] : List Event) = 0) ∧
    (∃ cfg, LoadConfig negativeRetriesEnv sampleParseDuration sampleAtoi = some cfg ∧
      (NewInfrastructureServer cfg).maxRetries = -1) :=
  ⟨(QueryAssets_nil_response_iff sampleUnmarshal alwaysFailEnv (-1) samplePolygon
      { MinLat := 0, MinLon := 0, MaxLat := 1, MaxLon := 1 } rfl).2.1 (by decide),
   (QueryAssets_nil_response_iff sampleUnmarshal alwaysFailEnv (-1) samplePolygon
      { MinLat := 0, MinLon := 0, MaxLat := 1, MaxLon := 1 } rfl).2.2.2
      negativeRetriesEnv sampleParseDuration sampleAtoi 60000000000 (-1) 2000000000
      rfl rfl rfl⟩

/-! ## Lemmas on the handler -/

theorem extractBounds_ok_decodes (unmarshal : String → Option (List (String × JSON)))
    (text : String) (bounds : Bounds)
    (hb : extractBounds unmarshal text = Except.ok bounds) :
    ∃ geoData, unmarshal text = some geoData := by
  unfold extractBounds at hb
  cases hu : unmarshal text with
  | none => rw [hu] at hb; cases hb
  | some geoData => exact ⟨geoData, rfl⟩

theorem toPbAssets_eq_filterMap (marshal : Geometry → Option String) (assets : List Asset) :
    toPbAssets marshal assets = assets.filterMap (toPbAsset marshal) := by
  unfold toPbAssets
  rw [foldl_append_filterMap (toPbAsset marshal)]
  · simp
  · intro out a
    cases h : toPbAsset marshal a <;> simp

/-- The answer of `GetAssetsInAOI` read off the result of `QueryAssets`, for
a payload that passed the two checks of the handler. -/
theorem GetAssetsInAOI_of_query (unmarshal : String → Option (List (String × JSON)))
    (marshal : Geometry → Option String) (env : Env) (maxRetries : Int) (text : String)
    (bounds : Bounds) (hne : text ≠ "")
    (hb : extractBounds unmarshal text = Except.ok bounds)
    (result : QueryResult) (events : List Event)
    (hq : QueryAssets unmarshal env maxRetries text = some (result, events)) :
    GetAssetsInAOI unmarshal marshal env maxRetries text =
      some (match result with
        | QueryResult.error _ =>
          RpcResult.status Code.Internal "failed to fetch assets from OpenStreetMap"
        | QueryResult.nilDereference => RpcResult.nilDereference
        | QueryResult.ok assets =>
          RpcResult.ok
            { Assets := assets.filterMap (toPbAsset marshal),
              TotalCount := toInt32 (assets.filterMap (toPbAsset marshal)).length },
        events) := by
  obtain ⟨geoData, hu⟩ := extractBounds_ok_decodes unmarshal text bounds hb
  unfold GetAssetsInAOI
  simp only [hne, if_false, hu, hq]
  cases result with
  | ok assets => simp only [toPbAssets_eq_filterMap]
  | error e => rfl
  | nilDereference => rfl

theorem QueryAssets_of_cancelled (unmarshal : String → Option (List (String × JSON)))
    (env : Env) (maxRetries : Int) (areaGeoJSON : String) (bounds : Bounds)
    (hb : extractBounds unmarshal areaGeoJSON = Except.ok bounds)
    (j : Nat) (ce : CtxErr) (hj : 0 < j) (hle : (j : Int) ≤ maxRetries)
    (hfail : ∀ i, i < j → ∃ e, env.exec (buildQuery bounds) i = Except.error e)
    (hwait : ∀ i, i < j → env.wait i = none) (hce : env.wait j = some ce) :
    QueryAssets unmarshal env maxRetries areaGeoJSON =
      some (QueryResult.error (QueryErr.ctx ce), attemptsTrace j ++ [Event.wait j]) := by
  have hloop := retryLoop_cancelled env maxRetries (buildQuery bounds) ce j
    (loopFuel maxRetries) 0 none none
    (by unfold loopFuel; omega) (by simpa using hle) (by omega)
    (fun i _ h2 => hfail i (by omega)) (fun i _ h2 => hwait i (by omega))
    (by simpa using hce)
  simp only [Nat.zero_add] at hloop
  unfold QueryAssets
  simp only [hb, hloop, attemptsTrace, List.range_eq_range']

/-- On the last attempt of the budget there is no wait to notice the
context: with three retries and the context cancelled during the fourth
attempt, `QueryAssets` returns the wrapped after-4-attempts error. -/
theorem QueryAssets_last_attempt_cancelled :
    QueryAssets sampleUnmarshal lastAttemptCancelledEnv 3 samplePolygon =
      some (QueryResult.error (QueryErr.afterAttempts 4
          (ExecErr.executeRequest (some CtxErr.Canceled) "context canceled")),
        attemptsTrace 4) :=
  QueryAssets_of_exhausted sampleUnmarshal lastAttemptCancelledEnv 3 samplePolygon
    { MinLat := 0, MinLon := 0, MaxLat := 1, MaxLon := 1 } rfl (fun _ => rfl) _
    (fun j hj => ⟨ExecErr.badStatus 504 "", by
      have : j = 0 ∨ j = 1 ∨ j = 2 := by omega
      rcases this with h | h | h <;> subst h <;> rfl⟩)
    rfl

/-! ## Cancellation (C11) -/

/-- C11, as stated, fails: with the context cancelled during the wait
before the second retry, `GetAssetsInAOI` answers with the INTERNAL code and
the very message it gives when every attempt of the budget failed, so its
caller cannot tell the two apart. -/
theorem GetAssetsInAOI_cancelled_internal :
    (GetAssetsInAOI sampleUnmarshal sampleMarshal cancelledEnv 3 samplePolygon).map Prod.fst =
      some (RpcResult.status Code.Internal "failed to fetch assets from OpenStreetMap") ∧
    (GetAssetsInAOI sampleUnmarshal sampleMarshal alwaysFailEnv 3 samplePolygon).map Prod.fst =
      some (RpcResult.status Code.Internal "failed to fetch assets from OpenStreetMap") := by
  constructor
  · rw [GetAssetsInAOI_of_query sampleUnmarshal sampleMarshal cancelledEnv 3 samplePolygon
      { MinLat := 0, MinLon := 0, MaxLat := 1, MaxLon := 1 } (by decide) rfl _ _
      (QueryAssets_of_cancelled sampleUnmarshal cancelledEnv 3 samplePolygon
        { MinLat := 0, MinLon := 0, MaxLat := 1, MaxLon := 1 } rfl 2 CtxErr.Canceled
        (by decide) (by decide) (fun _ _ => ⟨_, rfl⟩)
        (fun i hi => by
          have : i = 0 ∨ i = 1 := by omega
          rcases this with h | h <;> subst h <;> rfl)
        rfl)]
    rfl
  · rw [GetAssetsInAOI_of_query sampleUnmarshal sampleMarshal alwaysFailEnv 3 samplePolygon
      { MinLat := 0, MinLon := 0, MaxLat := 1, MaxLon := 1 } (by decide) rfl _ _
      (QueryAssets_of_exhausted sampleUnmarshal alwaysFailEnv 3 samplePolygon
        { MinLat := 0, MinLon := 0, MaxLat := 1, MaxLon := 1 } rfl (fun _ => rfl)
        (ExecErr.badStatus 504 "") (fun _ _ => ⟨_, rfl⟩) rfl)]
    rfl

/-- C11, amended: when the context is seen done in the wait before retry
`j`, whether it fired during that wait or during the attempt before it,
`QueryAssets` makes no further attempt and returns the context error itself,
which is not the wrapped after-N-attempts error; `GetAssetsInAOI` has no
cancelled category and answers this error, like every error of
`QueryAssets`, with the INTERNAL code. -/
theorem QueryAssets_cancelled_category (unmarshal : String → Option (List (String × JSON)))
    (marshal : Geometry → Option String) (env : Env) (maxRetries : Int) (text : String)
    (bounds : Bounds) (hne : text ≠ "")
    (hb : extractBounds unmarshal text = Except.ok bounds)
    (j : Nat) (ce : CtxErr) (hj : 0 < j) (hle : (j : Int) ≤ maxRetries)
    (hfail : ∀ i, i < j → ∃ e, env.exec (buildQuery bounds) i = Except.error e)
    (hwait : ∀ i, i < j → env.wait i = none) (hce : env.wait j = some ce) :
    QueryAssets unmarshal env maxRetries text =
      some (QueryResult.error (QueryErr.ctx ce), attemptsTrace j ++ [Event.wait j]) ∧
    attemptCount (attemptsTrace j ++ [Event.wait j]) = j ∧
    (∀ n e, QueryErr.ctx ce ≠ QueryErr.afterAttempts n e) ∧
    GetAssetsInAOI unmarshal marshal env maxRetries text =
      some (RpcResult.status Code.Internal "failed to fetch assets from OpenStreetMap",
        attemptsTrace j ++ [Event.wait j]) ∧
    (∀ e events, QueryAssets unmarshal env maxRetries text =
        some (QueryResult.error e, events) →
      GetAssetsInAOI unmarshal marshal env maxRetries text =
        some (RpcResult.status Code.Internal "failed to fetch assets from OpenStreetMap",
          events)) := by
  have hq := QueryAssets_of_cancelled unmarshal env maxRetries text bounds hb j ce hj hle
    hfail hwait hce
  refine ⟨hq, by rw [attemptCount_append_wait, attemptCount_attemptsTrace], ?_, ?_, ?_⟩
  · intro n e h
    cases h
  · rw [GetAssetsInAOI_of_query unmarshal marshal env maxRetries text bounds hne hb _ _ hq]
  · intro e events hq'
    rw [GetAssetsInAOI_of_query unmarshal marshal env maxRetries text bounds hne hb _ _ hq']

theorem QueryAssets_cancelled_category_witness :
    QueryAssets sampleUnmarshal attemptCancelledEnv 3 samplePolygon =
      some (QueryResult.error (QueryErr.ctx CtxErr.Canceled),
        attemptsTrace 2 ++ [Event.wait 2]) ∧
    attemptCount (attemptsTrace 2 ++ [Event.wait 2]) = 2 :=
  ⟨(QueryAssets_cancelled_category sampleUnmarshal sampleMarshal attemptCancelledEnv 3
      samplePolygon { MinLat := 0, MinLon := 0, MaxLat := 1, MaxLon := 1 } (by decide) rfl
      2 CtxErr.Canceled (by decide) (by decide)
      (fun i hi => by
        have : i = 0 ∨ i = 1 := by omega
        rcases this with h | h <;> subst h <;> exact ⟨_, rfl⟩)
      (fun i hi => by
        have : i = 0 ∨ i = 1 := by omega
        rcases this with h | h <;> subst h <;> rfl)
      rfl).1,
   (QueryAssets_cancelled_category sampleUnmarshal sampleMarshal attemptCancelledEnv 3
      samplePolygon { MinLat := 0, MinLon := 0, MaxLat := 1, MaxLon := 1 } (by decide) rfl
      2 CtxErr.Canceled (by decide) (by decide)
      (fun i hi => by
        have : i = 0 ∨ i = 1 := by omega
        rcases this with h | h <;> subst h <;> exact ⟨_, rfl⟩)
      (fun i hi => by
        have : i = 0 ∨ i = 1 := by omega
        rcases this with h | h <;> subst h <;> rfl)
      rfl).2.1⟩

/-! ## Lemmas on counting -/

theorem toInt32_of_lt (n : Nat) (h : n < 2147483648) : toInt32 n = (n : Int) := by
  unfold toInt32
  norm_num
  omega

/-- The `typeCount` loop started from `acc`: its keys are the asset types in
reverse order in front of those of `acc`, and each count is the number of
assets of that type added to the count in `acc`. -/
theorem typeCount_foldl (pbAssets : List PbAsset) :
    ∀ acc : List (String × Nat),
      ((pbAssets.foldl
          (fun counts asset =>
            (asset.AssetType, (counts.lookup asset.AssetType).getD 0 + 1) :: counts)
          acc).map Prod.fst =
        (pbAssets.map (fun asset => asset.AssetType)).reverse ++ acc.map Prod.fst) ∧
      ∀ k, countOf (pbAssets.foldl
          (fun counts asset =>
            (asset.AssetType, (counts.lookup asset.AssetType).getD 0 + 1) :: counts)
          acc) k =
        (pbAssets.map (fun asset => asset.AssetType)).count k + countOf acc k := by
  induction pbAssets with
  | nil =>
    intro acc
    simp
  | cons a l ih =>
    intro acc
    obtain ⟨h1, h2⟩ := ih ((a.AssetType, (acc.lookup a.AssetType).getD 0 + 1) :: acc)
    constructor
    · simp only [List.foldl_cons, h1, List.map_cons, List.reverse_cons, List.append_assoc,
        List.singleton_append]
    · intro k
      simp only [List.foldl_cons, h2, List.map_cons]
      by_cases hk : k = a.AssetType
      · subst hk
        simp [countOf, List.lookup_cons, List.count_cons]
        omega
      · have hk' : (k == a.AssetType) = false := beq_eq_false_iff_ne.mpr hk
        have hk'' : (a.AssetType == k) = false := beq_eq_false_iff_ne.mpr (Ne.symm hk)
        simp [countOf, List.lookup_cons, List.count_cons, hk', hk'']

theorem countsTotal_typeCount (pbAssets : List PbAsset) :
    countsTotal (typeCount pbAssets) = pbAssets.length := by
  obtain ⟨h1, h2⟩ := typeCount_foldl pbAssets []
  unfold countsTotal countedTypes typeCount
  rw [h1]
  have hfun : (countOf (pbAssets.foldl
      (fun counts asset =>
        (asset.AssetType, (counts.lookup asset.AssetType).getD 0 + 1) :: counts) [])) =
      fun k => (pbAssets.map (fun asset => asset.AssetType)).reverse.count k := by
    funext k
    rw [h2 k]
    simp [countOf]
  rw [hfun]
  simp only [List.map_nil, List.append_nil]
  rw [List.sum_map_count_dedup_eq_length]
  simp

/-! ## Order and count of the returned assets (C12) -/

/-- C12, as stated, fails: for a response of `2^31` hospital nodes
`GetAssetsInAOI` returns `2^31` assets, and `TotalCount`, a 32-bit integer,
is `-2^31`. -/
theorem GetAssetsInAOI_total_count_wraps :
    (GetAssetsInAOI sampleUnmarshal sampleMarshal manyHospitalsEnv 3 samplePolygon).bind
      (fun answer => answer.1.counts) = some (2147483648, -2147483648) := by
  have hconv : convertElement hospitalNode = some
      { Typ := "hospital", Geometry := Geometry.Point [0, 0],
        Properties := elementProperties hospitalNode } := by decide
  have hpb : toPbAsset sampleMarshal
      { Typ := "hospital", Geometry := Geometry.Point [0, 0],
        Properties := elementProperties hospitalNode } = some
      { AssetType := "hospital", AssetGeometryGeojson := "geometry",
        Properties := (elementProperties hospitalNode).map (fun kv => (kv.1, formatV kv.2)) } :=
    rfl
  rw [GetAssetsInAOI_of_query sampleUnmarshal sampleMarshal manyHospitalsEnv 3 samplePolygon
    { MinLat := 0, MinLon := 0, MaxLat := 1, MaxLon := 1 } (by decide) rfl _ _
    (QueryAssets_of_success sampleUnmarshal manyHospitalsEnv 3 samplePolygon
      { MinLat := 0, MinLon := 0, MaxLat := 1, MaxLon := 1 } rfl (fun _ => rfl) 0
      { Elements := List.replicate 2147483648 hospitalNode } (by decide)
      (fun j hj => absurd hj (by omega)) rfl)]
  simp only [Option.some_bind, RpcResult.counts, convertToAssets_eq_filterMap,
    List.filterMap_replicate_of_some hconv, List.filterMap_replicate_of_some hpb,
    List.length_replicate, Option.some.injEq, Prod.mk.injEq, true_and]
  decide

/-- C12, amended: for a successful fetch response `convertToAssets` is the
order-preserving filter-map of `convertElement` over its elements, and
`GetAssetsInAOI` returns those assets in the same order, dropping exactly
the assets whose geometry fails to serialize and keeping each type; the
per-type counts sum to the number of returned assets; `TotalCount` is the
32-bit conversion of that number and equals it when it is below `2^31`. -/
theorem GetAssetsInAOI_assets_in_order (unmarshal : String → Option (List (String × JSON)))
    (marshal : Geometry → Option String) (env : Env) (N : Nat) (text : String)
    (bounds : Bounds) (hne : text ≠ "")
    (hb : extractBounds unmarshal text = Except.ok bounds)
    (hw : ∀ i, env.wait i = none) (k : Nat) (r : OverpassResponse) (hk : k ≤ N)
    (hfail : ∀ j, j < k → ∃ e, env.exec (buildQuery bounds) j = Except.error e)
    (hok : env.exec (buildQuery bounds) k = Except.ok r) :
    convertToAssets r = r.Elements.filterMap convertElement ∧
    (∃ response events,
      GetAssetsInAOI unmarshal marshal env N text = some (RpcResult.ok response, events) ∧
      response.Assets = (convertToAssets r).filterMap (toPbAsset marshal) ∧
      response.TotalCount = toInt32 response.Assets.length ∧
      (response.Assets.length < 2147483648 →
        response.TotalCount = (response.Assets.length : Int)) ∧
      countsTotal (typeCount response.Assets) = response.Assets.length) ∧
    (∀ asset, toPbAsset marshal asset = none ↔ marshal asset.Geometry = none) ∧
    (∀ asset pbAsset, toPbAsset marshal asset = some pbAsset →
      pbAsset.AssetType = asset.Typ) := by
  refine ⟨convertToAssets_eq_filterMap r, ?_, ?_, ?_⟩
  · have hq := QueryAssets_of_success unmarshal env N text bounds hb hw k r hk hfail hok
    refine ⟨_, _,
      GetAssetsInAOI_of_query unmarshal marshal env N text bounds hne hb _ _ hq,
      rfl, rfl, ?_, countsTotal_typeCount _⟩
    intro hlt
    exact toInt32_of_lt _ hlt
  · intro asset
    unfold toPbAsset
    cases h : marshal asset.Geometry <;> simp
  · intro asset pbAsset h
    unfold toPbAsset at h
    cases hm : marshal asset.Geometry with
    | none => rw [hm] at h; cases h
    | some g =>
      rw [hm] at h
      simp only [Option.some.injEq] at h
      rw [← h]

theorem GetAssetsInAOI_assets_in_order_witness :
    (GetAssetsInAOI sampleUnmarshal sampleMarshal endToEndEnv 3 samplePolygon).bind
        (fun answer => answer.1.assetTypes) = some ["building", "hospital"] ∧
    (GetAssetsInAOI sampleUnmarshal sampleMarshal endToEndEnv 3 samplePolygon).bind
        (fun answer => answer.1.counts) = some (2, 2) := by
  obtain ⟨response, events, hres, hassets, _, hfit, _⟩ :=
    (GetAssetsInAOI_assets_in_order sampleUnmarshal sampleMarshal endToEndEnv 3 samplePolygon
      { MinLat := 0, MinLon := 0, MaxLat := 1, MaxLon := 1 } (by decide) rfl (fun _ => rfl)
      0 { Elements := [closedBuildingWay, hospitalNode] } (by decide)
      (fun j hj => absurd hj (by omega)) rfl).2.1
  have htypes : response.Assets.map (fun asset => asset.AssetType)
      = ["building", "hospital"] := by
    rw [hassets]
    rfl
  have hlen : response.Assets.length = 2 := by
    rw [hassets]
    rfl
  have htotal : response.TotalCount = 2 := by
    rw [hfit (by omega), hlen]
    rfl
  have hres' : GetAssetsInAOI sampleUnmarshal sampleMarshal endToEndEnv 3 samplePolygon =
      some (RpcResult.ok response, events) := hres
  rw [hres']
  simp only [Option.some_bind, RpcResult.assetTypes, RpcResult.counts, htypes, hlen, htotal,
    and_self]

/-! ## Status codes of `GetAssetsInAOI` (C10) -/

theorem attemptCount_waited_exec_succ (attempt : Nat) (events : List Event) :
    attemptCount
      ((if attempt > 0 then [Event.wait attempt] else []) ++ Event.exec attempt :: events)
      = attemptCount events + 1 := by
  unfold attemptCount
  by_cases h : attempt > 0 <;> simp [h, List.filter_cons, Event.isExec]

/-- Every attempt the loop made before it returned the context error, or
before it was left with an error, failed: a returned context error was seen
in the wait before a retry within the budget, and an error past the end of
the loop is either the one the loop started with or follows the failure of
every attempt up to the last of the budget. -/
theorem retryLoop_failures (env : Env) (maxRetries : Int) (query : String) :
    ∀ (fuel a : Nat) (response₀ : Option OverpassResponse) (err₀ : Option ExecErr)
      (exit : LoopExit) (events : List Event),
      retryLoop env maxRetries query fuel a response₀ err₀ = some (exit, events) →
      (∀ ce, exit = LoopExit.returned ce →
        ∃ n, 0 < a + n ∧ ((a + n : Nat) : Int) ≤ maxRetries ∧ env.wait (a + n) = some ce ∧
          (∀ i, a ≤ i → i < a + n → ∃ e, env.exec query i = Except.error e) ∧
          attemptCount events = n) ∧
      (∀ response e, exit = LoopExit.done response (some e) →
        (events = [] ∧ err₀ = some e) ∨
        (∃ n, 0 < n ∧ ((a + n : Nat) : Int) = maxRetries + 1 ∧
          (∀ i, a ≤ i → i < a + n → ∃ e', env.exec query i = Except.error e') ∧
          attemptCount events = n)) := by
  intro fuel
  induction fuel with
  | zero =>
    intro a response₀ err₀ exit events h
    simp [retryLoop] at h
  | succ f ih =>
    intro a response₀ err₀ exit events h
    unfold retryLoop at h
    by_cases hle : (a : Int) ≤ maxRetries
    · simp only [hle, if_true] at h
      cases hw : (if a > 0 then env.wait a else none) with
      | some ce =>
        rw [hw] at h
        simp only [Option.some.injEq, Prod.mk.injEq] at h
        obtain ⟨h1, h2⟩ := h
        have ha : a > 0 := by
          by_contra hn
          simp [hn] at hw
        rw [if_pos ha] at hw
        constructor
        · intro ce' hce'
          rw [← h1] at hce'
          cases hce'
          refine ⟨0, by omega, by simpa using hle, by simpa using hw, ?_, ?_⟩
          · intro i h1 h2
            omega
          · rw [← h2]
            simp [attemptCount, Event.isExec]
        · intro response e he
          rw [← h1] at he
          cases he
      | none =>
        rw [hw] at h
        simp only at h
        cases he : env.exec query a with
        | ok r =>
          rw [he] at h
          simp only [Option.some.injEq, Prod.mk.injEq] at h
          obtain ⟨h1, _⟩ := h
          constructor
          · intro ce hce
            rw [← h1] at hce
            cases hce
          · intro response e hexit
            rw [← h1] at hexit
            cases hexit
        | error e₀ =>
          rw [he] at h
          simp only at h
          cases hrec : retryLoop env maxRetries query f (a + 1) none (some e₀) with
          | none =>
            rw [hrec] at h
            cases h
          | some p =>
            obtain ⟨exit', events'⟩ := p
            rw [hrec] at h
            simp only [Option.some.injEq, Prod.mk.injEq] at h
            obtain ⟨h1, h2⟩ := h
            subst h1
            obtain ⟨ihret, ihdone⟩ := ih (a + 1) none (some e₀) exit' events' hrec
            constructor
            · intro ce hce
              obtain ⟨n, hpos, hbud, hwait, hfail, hcount⟩ := ihret ce hce
              refine ⟨n + 1, by omega, ?_, ?_, ?_, ?_⟩
              · rw [show a + (n + 1) = a + 1 + n by omega]
                exact hbud
              · rw [show a + (n + 1) = a + 1 + n by omega]
                exact hwait
              · intro i hi1 hi2
                rcases Nat.eq_or_lt_of_le hi1 with hia | hia
                · exact ⟨e₀, hia ▸ he⟩
                · exact hfail i (by omega) (by omega)
              · rw [← h2, attemptCount_waited_exec_succ, hcount]
            · intro response e hexit
              right
              rcases ihdone response e hexit with ⟨hnil, herr⟩ | ⟨n, hpos, hbud, hfail, hcount⟩
              · have hend : ¬ ((a + 1 : Nat) : Int) ≤ maxRetries := by
                  intro hcontra
                  rw [hexit] at hrec
                  cases f with
                  | zero => simp [retryLoop] at hrec
                  | succ f' =>
                    unfold retryLoop at hrec
                    simp only [hcontra, if_true] at hrec
                    cases hw' : (if a + 1 > 0 then env.wait (a + 1) else none) with
                    | some ce =>
                      rw [hw'] at hrec
                      simp at hrec
                    | none =>
                      rw [hw'] at hrec
                      simp only at hrec
                      cases he' : env.exec query (a + 1) with
                      | ok r =>
                        rw [he'] at hrec
                        simp at hrec
                      | error e₁ =>
                        rw [he'] at hrec
                        simp only at hrec
                        cases hrec' : retryLoop env maxRetries query f' (a + 1 + 1) none
                            (some e₁) with
                        | none =>
                          rw [hrec'] at hrec
                          cases hrec
                        | some p' =>
                          obtain ⟨exit'', events''⟩ := p'
                          rw [hrec'] at hrec
                          simp only [Option.some.injEq, Prod.mk.injEq] at hrec
                          have := hrec.2
                          rw [hnil] at this
                          simp at this
                refine ⟨1, by omega, ?_, ?_, ?_⟩
                · push_cast at hend ⊢
                  omega
                · intro i hi1 hi2
                  have : i = a := by omega
                  exact ⟨e₀, this ▸ he⟩
                · rw [← h2, attemptCount_waited_exec_succ, hnil]
                  simp [attemptCount]
              · refine ⟨n + 1, by omega, ?_, ?_, ?_⟩
                · rw [show a + (n + 1) = a + 1 + n by omega]
                  exact hbud
                · intro i hi1 hi2
                  rcases Nat.eq_or_lt_of_le hi1 with hia | hia
                  · exact ⟨e₀, hia ▸ he⟩
                  · exact hfail i (by omega) (by omega)
                · rw [← h2, attemptCount_waited_exec_succ, hcount]
    · simp only [hle, if_false, Option.some.injEq, Prod.mk.injEq] at h
      obtain ⟨h1, h2⟩ := h
      constructor
      · intro ce hce
        rw [← h1] at hce
        cases hce
      · intro response e hexit
        rw [← h1] at hexit
        simp only [LoopExit.done.injEq] at hexit
        exact Or.inl ⟨h2.symm, hexit.2⟩

/-- C10, as stated, fails twice.  The payload that is an object without
coordinates passes the handler's check, no bounds can be extracted from it,
and `GetAssetsInAOI` answers INTERNAL, not INVALID_ARGUMENT, without any
fetch attempt.  And with a budget of four attempts and the context cancelled
in the wait before the second retry, `GetAssetsInAOI` answers INTERNAL after
two attempts only. -/
theorem GetAssetsInAOI_internal_refuted :
    (extractBounds sampleUnmarshal emptyObjectPayload
        = Except.error BoundsErr.noCoordinates ∧
      GetAssetsInAOI sampleUnmarshal sampleMarshal alwaysFailEnv 3 emptyObjectPayload
        = some (RpcResult.status Code.Internal "failed to fetch assets from OpenStreetMap",
            [])) ∧
    (GetAssetsInAOI sampleUnmarshal sampleMarshal cancelledEnv 3 samplePolygon
        = some (RpcResult.status Code.Internal "failed to fetch assets from OpenStreetMap",
            attemptsTrace 2 ++ [Event.wait 2]) ∧
      attemptCount (attemptsTrace 2 ++ [Event.wait 2]) = 2) := by
  refine ⟨⟨rfl, rfl⟩, ?_, by decide⟩
  rw [GetAssetsInAOI_of_query sampleUnmarshal sampleMarshal cancelledEnv 3 samplePolygon
    { MinLat := 0, MinLon := 0, MaxLat := 1, MaxLon := 1 } (by decide) rfl _ _
    (QueryAssets_of_cancelled sampleUnmarshal cancelledEnv 3 samplePolygon
      { MinLat := 0, MinLon := 0, MaxLat := 1, MaxLon := 1 } rfl 2 CtxErr.Canceled
      (by decide) (by decide) (fun _ _ => ⟨_, rfl⟩)
      (fun i hi => by
        have : i = 0 ∨ i = 1 := by omega
        rcases this with h | h <;> subst h <;> rfl)
      rfl)]

/-- C10, amended: `GetAssetsInAOI` answers INVALID_ARGUMENT, without any
fetch attempt, for every payload that is empty or that `json.Unmarshal` does
not decode into a map.  A payload from which no bounds can be extracted is
rejected with a status, without any fetch attempt.  For a payload from which
bounds are extracted it answers INTERNAL only after the external source was
queried, and then either every attempt of the retry budget failed, or every
attempt made had failed when the context was seen done in the wait before a
retry. -/
theorem GetAssetsInAOI_status_codes (unmarshal : String → Option (List (String × JSON)))
    (marshal : Geometry → Option String) (env : Env) (maxRetries : Int) (text : String) :
    (text = "" ∨ unmarshal text = none →
      ∃ message, GetAssetsInAOI unmarshal marshal env maxRetries text =
        some (RpcResult.status Code.InvalidArgument message, [])) ∧
    ((∃ e, extractBounds unmarshal text = Except.error e) →
      ∃ code message, GetAssetsInAOI unmarshal marshal env maxRetries text =
        some (RpcResult.status code message, [])) ∧
    (∀ bounds message events,
      extractBounds unmarshal text = Except.ok bounds →
      GetAssetsInAOI unmarshal marshal env maxRetries text =
        some (RpcResult.status Code.Internal message, events) →
      0 < attemptCount events ∧
      (((∀ j : Nat, (j : Int) ≤ maxRetries →
            ∃ e, env.exec (buildQuery bounds) j = Except.error e) ∧
          (attemptCount events : Int) = maxRetries + 1) ∨
        (∃ (j : Nat) (ce : CtxErr), 0 < j ∧ (j : Int) ≤ maxRetries ∧
          env.wait j = some ce ∧
          (∀ i, i < j → ∃ e, env.exec (buildQuery bounds) i = Except.error e) ∧
          attemptCount events = j))) := by
  refine ⟨?_, ?_, ?_⟩
  · intro h
    by_cases h0 : text = ""
    · exact ⟨"aoi_geojson is required", by simp [GetAssetsInAOI, h0]⟩
    · rcases h with h | h
      · exact absurd h h0
      · exact ⟨"invalid GeoJSON format", by simp [GetAssetsInAOI, h0, h]⟩
  · rintro ⟨e, he⟩
    by_cases h0 : text = ""
    · exact ⟨Code.InvalidArgument, "aoi_geojson is required", by simp [GetAssetsInAOI, h0]⟩
    · cases hu : unmarshal text with
      | none =>
        exact ⟨Code.InvalidArgument, "invalid GeoJSON format",
          by simp [GetAssetsInAOI, h0, hu]⟩
      | some geoData =>
        refine ⟨Code.Internal, "failed to fetch assets from OpenStreetMap", ?_⟩
        unfold GetAssetsInAOI QueryAssets
        simp only [h0, if_false, hu, he]
  · intro bounds message events hb hres
    have hne : text ≠ "" := by
      intro h0
      simp [GetAssetsInAOI, h0] at hres
    cases hq : QueryAssets unmarshal env maxRetries text with
    | none =>
      obtain ⟨geoData, hu⟩ := extractBounds_ok_decodes unmarshal text bounds hb
      unfold GetAssetsInAOI at hres
      simp only [hne, if_false, hu, hq] at hres
      cases hres
    | some res =>
      obtain ⟨result, events'⟩ := res
      have hans := GetAssetsInAOI_of_query unmarshal marshal env maxRetries text bounds hne hb
        result events' hq
      cases result with
      | ok assets =>
        rw [hans] at hres
        simp at hres
      | nilDereference =>
        rw [hans] at hres
        simp at hres
      | error qerr =>
        rw [hans] at hres
        simp only [Option.some.injEq, Prod.mk.injEq] at hres
        obtain ⟨_, hev⟩ := hres
        subst hev
        obtain ⟨exit, hloop, hform⟩ :=
          QueryAssets_of_loop unmarshal env maxRetries text bounds hb _ _ hq
        obtain ⟨hret, hdone⟩ :=
          retryLoop_failures env maxRetries (buildQuery bounds) _ _ _ _ _ _ hloop
        cases exit with
        | returned ce =>
          obtain ⟨n, hpos, hbud, hwait, hfail, hcount⟩ := hret ce rfl
          simp only [Nat.zero_add] at hpos hbud hwait hfail
          refine ⟨by omega, Or.inr ⟨n, ce, hpos, hbud, hwait, ?_, hcount⟩⟩
          intro i hi
          exact hfail i (Nat.zero_le i) hi
        | done response err =>
          cases err with
          | some e =>
            rcases hdone response e rfl with ⟨_, hnone⟩ | ⟨n, hpos, hbud, hfail, hcount⟩
            · cases hnone
            · simp only [Nat.zero_add] at hbud hfail
              refine ⟨by omega, Or.inl ⟨?_, by rw [hcount]; exact hbud⟩⟩
              intro j hj
              exact hfail j (Nat.zero_le j) (by omega)
          | none =>
            cases response with
            | some r => cases hform
            | none => cases hform

theorem GetAssetsInAOI_status_codes_witness :
    (∃ message, GetAssetsInAOI sampleUnmarshal sampleMarshal alwaysFailEnv 3 "" =
      some (RpcResult.status Code.InvalidArgument message, [])) ∧
    (∃ message,
      GetAssetsInAOI sampleUnmarshal sampleMarshal alwaysFailEnv 3 "[[[0,0],[1,1]]]" =
        some (RpcResult.status Code.InvalidArgument message, [])) ∧
    (∃ code message,
      GetAssetsInAOI sampleUnmarshal sampleMarshal alwaysFailEnv 3 shortFirstPayload =
        some (RpcResult.status code message, [])) ∧
    0 < attemptCount (attemptsTrace 4) :=
  ⟨(GetAssetsInAOI_status_codes sampleUnmarshal sampleMarshal alwaysFailEnv 3 "").1
      (Or.inl rfl),
   (GetAssetsInAOI_status_codes sampleUnmarshal sampleMarshal alwaysFailEnv 3
      "[[[0,0],[1,1]]]").1 (Or.inr rfl),
   (GetAssetsInAOI_status_codes sampleUnmarshal sampleMarshal alwaysFailEnv 3
      shortFirstPayload).2.1 ⟨BoundsErr.invalidCoordinate, rfl⟩,
   ((GetAssetsInAOI_status_codes sampleUnmarshal sampleMarshal alwaysFailEnv 3
      samplePolygon).2.2 { MinLat := 0, MinLon := 0, MaxLat := 1, MaxLon := 1 }
      "failed to fetch assets from OpenStreetMap" (attemptsTrace 4) rfl
      (by
        rw [GetAssetsInAOI_of_query sampleUnmarshal sampleMarshal alwaysFailEnv 3
          samplePolygon { MinLat := 0, MinLon := 0, MaxLat := 1, MaxLon := 1 } (by decide)
          rfl _ _
          (QueryAssets_of_exhausted sampleUnmarshal alwaysFailEnv 3 samplePolygon
            { MinLat := 0, MinLon := 0, MaxLat := 1, MaxLon := 1 } rfl (fun _ => rfl)
            (ExecErr.badStatus 504 "") (fun _ _ => ⟨_, rfl⟩) rfl)])).1⟩

end Osm
